import Mathlib

/-!
Shallow embedding of the UdemyService class (stream-source resolution,
response caching, and course-content orchestration) together with proofs
about the behaviours described in its specification.

External collaborators (the axios HTTP transport, the M3U8 adaptive playlist
resolver, and the node-cache TTL store) appear as oracle parameters or, for
the TTL store, as a small state machine modelled from the spec.
-/

namespace UdemyDownloader

/-- A JavaScript `Error` as built by `UdemyService._error` (lines 35-40): a
`name` acting as a discriminator, a `message`, and - for axios failures - the
optional HTTP status found at `error?.response?.status`. -/
structure JsError where
  name : String
  message : String
  responseStatus : Option Int := none
  deriving Repr, DecidableEq

/-- The builder `UdemyService._error(name, message)`: builds an error object carrying the
given name and message (no HTTP response attached). -/
def mkError (name : String) (message : String := "") : JsError :=
  { name := name, message := message, responseStatus := none }

/-- The `TypeError` JavaScript raises when a property of `undefined` is read. -/
def jsTypeError : JsError := mkError "TypeError" "Cannot read properties of undefined"

/-- A JavaScript value, at the resolution needed to model truthiness of cached
response data. Composite values (objects, arrays) are collapsed to an opaque
tag since only their identity and truthiness matter here. -/
inductive JsValue where
  | vnull
  | vundefined
  | vbool (b : Bool)
  | vnum (n : Int)
  | vstr (s : String)
  | vobj (tag : Nat)
  deriving Repr, DecidableEq

/-- JavaScript truthiness: `undefined`, `null`, `false`, `0` and `""` are
falsy, everything else (objects and arrays included) is truthy. `NaN` is not
modelled. -/
def jsTruthy : JsValue → Bool
  | .vnull => false
  | .vundefined => false
  | .vbool b => b
  | .vnum n => n != 0
  | .vstr s => s != ""
  | .vobj _ => true

/-- The default TTL the service passes to its cache: `stdTTL: 3600` (line 17). -/
def stdTTL : Nat := 3600

/-- Modelled from the spec: the node-cache collaborator (the `#cache` field)
is a key-value store with per-entry time-based expiry; an entry stored at
time `t` with the default TTL is served while `now < t + stdTTL` and treated
as absent afterwards (spec sections 3 `CacheEntry` and 4.1). Time is in
seconds. -/
structure CacheState where
  entries : List (String × JsValue × Nat)
  deriving Repr, DecidableEq

/-- Modelled from the spec: storing overwrites the entry for the key in place
(or appends a fresh entry) and stamps it with expiry `now + stdTTL`. -/
def setEntry (now : Nat) (key : String) (v : JsValue) :
    List (String × JsValue × Nat) → List (String × JsValue × Nat)
  | [] => [(key, v, now + stdTTL)]
  | e :: rest => if e.1 = key then (key, v, now + stdTTL) :: rest else e :: setEntry now key v rest

/-- Modelled from the spec: `cache.set(key, v)` at time `now`. -/
def cacheSet (now : Nat) (st : CacheState) (key : String) (v : JsValue) : CacheState :=
  ⟨setEntry now key v st.entries⟩

/-- First entry stored under `key`, together with its expiry. -/
def getEntry (key : String) : List (String × JsValue × Nat) → Option (JsValue × Nat)
  | [] => none
  | e :: rest => if e.1 = key then some (e.2.1, e.2.2) else getEntry key rest

/-- Modelled from the spec: `cache.get(key)` at time `now` returns the stored
value while the entry has not expired, and `undefined` (here `none`)
otherwise. -/
def cacheGet (now : Nat) (st : CacheState) (key : String) : Option JsValue :=
  match getEntry key st.entries with
  | some (v, exp) => if now < exp then some v else none
  | none => none

/-- The method `UdemyService.#fetchUrl(url, method)` (lines 179-203). The axios transport
is the oracle `net`, taking the method and url to response data or a failure.
Returns the delivered result, the cache state afterwards, and how many
network calls were issued (0 or 1). Mirrors the source: the cache is read
with the url alone as key, a cache hit is recognised by the truthiness test
`if (cachedData)`, and on success the response data is stored under the url
before being returned; on failure nothing is stored. -/
def fetchUrl (net : String → String → Except JsError JsValue) (now : Nat)
    (st : CacheState) (method url : String) :
    Except JsError JsValue × CacheState × Nat :=
  let hit : Option JsValue :=
    match cacheGet now st url with
    | some v => if jsTruthy v then some v else none
    | none => none
  match hit with
  | some v => (.ok v, st, 0)
  | none =>
    match net method url with
    | .ok d => (.ok d, cacheSet now st url d, 1)
    | .error e => (.error e, st, 1)

/-! ## Stream-source resolution (`_convertToStreams`, lines 92-177) -/

/-- JavaScript string lower-casing, as used by `label.toLowerCase()` and
`asset_type.toLowerCase()`. -/
def jsToLower (s : String) : String := ⟨s.data.map Char.toLower⟩

/-- JavaScript `parseInt(s, 10)`: skip leading whitespace, read an optional sign and then
the longest digit prefix; `NaN` (here `none`) when no digit is found. -/
def parseIntJS (s : String) : Option Int :=
  let cs := s.data.dropWhile (fun c => c == ' ' || c == '\t' || c == '\n' || c == '\r')
  let signAndRest : Int × List Char :=
    match cs with
    | '-' :: rest => (-1, rest)
    | '+' :: rest => (1, rest)
    | _ => (1, cs)
  let ds := signAndRest.2.takeWhile Char.isDigit
  if ds.isEmpty then none
  else some (signAndRest.1 * (ds.foldl (fun acc c => acc * 10 + (c.toNat - '0'.toNat)) 0 : Nat))

/-- Whether `p` is a prefix of the second character list. -/
def prefixAt : List Char → List Char → Bool
  | [], _ => true
  | _ :: _, [] => false
  | p :: ps, c :: cs => p == c && prefixAt ps cs

/-- Whether the pattern occurs as a contiguous run of the first list. -/
def hasSubstring : List Char → List Char → Bool
  | [], pat => pat.isEmpty
  | c :: rest, pat => prefixAt pat (c :: rest) || hasSubstring rest pat

/-- JavaScript `String.prototype.includes`. -/
def strIncludes (s pat : String) : Bool := hasSubstring s.data pat.data

/-- The constant `Number.MAX_SAFE_INTEGER`, the initial value of `minQuality` (line 98). -/
def MAX_SAFE_INTEGER : Int := 9007199254740991

/-- The constant `Number.MIN_SAFE_INTEGER`, the initial value of `maxQuality` (line 99). -/
def MIN_SAFE_INTEGER : Int := -9007199254740991

/-- The path marker recognising encrypted variants (line 101). -/
def encryptedMarker : String := "/encrypted-files"

/-- The manifest mime type that is discarded (line 108). -/
def dashMime : String := "application/dash+xml"

/-- One raw stream descriptor as consumed by `_convertToStreams`: a mime
`type`, a quality `label`, and the url held in `file` or `src` (either may be
absent, `none` standing for `undefined`). -/
structure StreamDescriptor where
  type : String
  label : String
  file : Option String
  src : Option String
  deriving Repr, DecidableEq

/-- The expression `video.file || video.src`: the first truthy of the two (an empty string is
falsy), `none` when the result is `undefined`/`null`/`""` via an absent
`src`. -/
def fileOrSrc (d : StreamDescriptor) : Option String :=
  match d.file with
  | some s => if s = "" then d.src else some s
  | none => d.src

/-- One entry of the `sources` object: `{ type, url }` (the url is whatever
`video.file || video.src` produced and may be `undefined`). -/
structure SourceEntry where
  type : String
  url : Option String
  deriving Repr, DecidableEq

/-- The `sources` accumulator: a JavaScript object modelled as an association
list in key-insertion order. -/
abbrev Sources := List (String × SourceEntry)

/-- Property read `sources[k]`. -/
def srcGet : Sources → String → Option SourceEntry
  | [], _ => none
  | e :: rest, k => if e.1 = k then some e.2 else srcGet rest k

/-- Property write `sources[k] = v`: overwrite in place, else append. -/
def srcSet : Sources → String → SourceEntry → Sources
  | [], k, v => [(k, v)]
  | e :: rest, k, v => if e.1 = k then (k, v) :: rest else e :: srcSet rest k v

/-- The keys of a `sources` object. -/
def srcKeys (s : Sources) : List String := s.map Prod.fst

/-- One `(quality, url)` pair yielded by the Adaptive Playlist Resolver
(`m3u8.loadPlaylist()`), the external collaborator of section 6. -/
structure PlaylistEntry where
  quality : Int
  url : String
  deriving Repr, DecidableEq

/-- The Adaptive Playlist Resolver as an oracle: from the url handed to
`new M3U8Service(url)` (possibly `undefined`) to the yielded pairs. -/
abbrev PlaylistResolver := Option String → List PlaylistEntry

/-- The filter of line 101: keep descriptors whose url does not contain the
encrypted-file marker. Reading `.includes` on an `undefined` url raises a
`TypeError`, which the surrounding `catch` will see. -/
def encFilter : List StreamDescriptor → Except JsError (List StreamDescriptor)
  | [] => .ok []
  | v :: rest =>
    match fileOrSrc v with
    | none => .error jsTypeError
    | some u =>
      match encFilter rest with
      | .error e => .error e
      | .ok r => .ok (if strIncludes u encryptedMarker then r else v :: r)

/-- State accumulated by the synchronous part of the `streams.map` callbacks
(lines 106-123 plus the verbatim registration of an `"auto"` entry at line
112): the `sources` object, the running `minQuality`/`maxQuality`, and the
deferred playlist expansions (type and url of each unencrypted `"auto"`
descriptor, in list order) whose continuations run only after the
`await m3u8.loadPlaylist()` suspension points. -/
structure Phase1State where
  sources : Sources
  minQ : Int
  maxQ : Int
  deferred : List (String × Option String)
  deriving Repr, DecidableEq

/-- The synchronous part of one `streams.map` callback. -/
def phase1Step (isEnc : Bool) (st : Phase1State) (video : StreamDescriptor) : Phase1State :=
  if video.type = dashMime then st
  else
    let quality := jsToLower video.label
    let url := fileOrSrc video
    let sources1 := srcSet st.sources quality ⟨video.type, url⟩
    if quality = "auto" then
      if isEnc then { st with sources := sources1 }
      else { st with sources := sources1, deferred := st.deferred ++ [(video.type, url)] }
    else
      match parseIntJS quality with
      | some n =>
        { st with
            sources := sources1
            minQ := if n < st.minQ then n else st.minQ
            maxQ := if n > st.maxQ then n else st.maxQ }
      | none => { st with sources := sources1 }

/-- The synchronous sweep over all descriptors, from the empty accumulators. -/
def phase1 (isEnc : Bool) (streams : List StreamDescriptor) : Phase1State :=
  streams.foldl (phase1Step isEnc) ⟨[], MAX_SAFE_INTEGER, MIN_SAFE_INTEGER, []⟩

/-- State carried by the playlist-merge continuations (lines 132-145). -/
structure Phase2State where
  sources : Sources
  minQ : Int
  maxQ : Int
  deriving Repr, DecidableEq

/-- One iteration of `for (const item of playlist)` for an `"auto"` descriptor
of mime `t`: update the running bounds, and register the pair under the
stringified quality only when that key is not already present. -/
def mergeItem (t : String) (st : Phase2State) (item : PlaylistEntry) : Phase2State :=
  let minQ := if item.quality < st.minQ then item.quality else st.minQ
  let maxQ := if item.quality > st.maxQ then item.quality else st.maxQ
  let sources :=
    if (srcGet st.sources (toString item.quality)).isSome then st.sources
    else srcSet st.sources (toString item.quality) ⟨t, some item.url⟩
  ⟨sources, minQ, maxQ⟩

/-- The deferred playlist expansions, each running its merge loop. -/
def phase2 (lp : PlaylistResolver) (deferred : List (String × Option String))
    (st : Phase2State) : Phase2State :=
  deferred.foldl (fun acc tu => (lp tu.2).foldl (mergeItem tu.1) acc) st

/-- The value `_convertToStreams` resolves to. -/
structure ResolvedStreamSet where
  minQuality : Option String
  maxQuality : Option String
  isEncrypted : Bool
  sources : Sources
  deriving Repr, DecidableEq

/-- The returned record of lines 168-173: the sentinels fall back to
`"auto"` when an `"auto"` key was registered, else to `null`; otherwise the
bounds are stringified. -/
def assemble (isEnc : Bool) (s2 : Phase2State) : ResolvedStreamSet :=
  { minQuality :=
      if s2.minQ = MAX_SAFE_INTEGER then
        (if (srcGet s2.sources "auto").isSome then some "auto" else none)
      else some (toString s2.minQ)
    maxQuality :=
      if s2.maxQ = MIN_SAFE_INTEGER then
        (if (srcGet s2.sources "auto").isSome then some "auto" else none)
      else some (toString s2.maxQ)
    isEncrypted := isEnc
    sources := s2.sources }

/-- The body of the `try` block of `_convertToStreams` (lines 94-173), before
the `catch` renames failures. `streamUrls` is `none` when the argument is
absent (`undefined`/`null`), reproducing the `!streamUrls` test. -/
def convertInner (lp : PlaylistResolver) (streamUrls : Option (List StreamDescriptor))
    (isEncrypted : Bool) : Except JsError ResolvedStreamSet :=
  match streamUrls with
  | none => .error (mkError "ENO_STREAMS" "No streams found to convert")
  | some urls =>
    match (if isEncrypted then encFilter urls else .ok urls) with
    | .error e => .error e
    | .ok filtered =>
      let isEncrypted2 := if isEncrypted then filtered.length == 0 else isEncrypted
      let streams := if filtered.length > 0 then filtered else urls
      let s1 := phase1 isEncrypted2 streams
      .ok (assemble isEncrypted2 (phase2 lp s1.deferred ⟨s1.sources, s1.minQ, s1.maxQ⟩))

/-- The method `UdemyService._convertToStreams(streamUrls, isEncrypted)` as the caller
sees it: any failure of the body is rethrown with name
`ECONVERT_TO_STREAMS` and the inner message (lines 174-176). -/
def _convertToStreams (lp : PlaylistResolver) (streamUrls : Option (List StreamDescriptor))
    (isEncrypted : Bool) : Except JsError ResolvedStreamSet :=
  match convertInner lp streamUrls isEncrypted with
  | .ok r => .ok r
  | .error e => .error (mkError "ECONVERT_TO_STREAMS" e.message)

/-! ## Curriculum items and per-item stream preparation
(`_prepareStreamSource`, lines 42-67) -/

/-- JavaScript `Boolean(x)` for an optional string: `undefined`, `null` and `""` are
falsy. Used for `Boolean(asset.media_license_token)` (line 49). -/
def jsStrTruthy : Option String → Bool
  | some s => s != ""
  | none => false

/-- The asset attached to a lecture, with the fields the service reads or
writes: `asset_type` (may be absent), `title`, `stream_urls?.Video` (collapsed
to one optional field, since only the `Video` member is read), `media_sources`,
`media_license_token`, and the `streams` field the service adds. -/
structure Asset where
  id : Int
  asset_type : Option String
  title : String
  stream_urls_Video : Option (List StreamDescriptor)
  media_sources : Option (List StreamDescriptor)
  media_license_token : Option String
  streams : Option ResolvedStreamSet
  deriving Repr, DecidableEq

/-- One curriculum item: `_class` discriminates chapters, lectures, quizzes. -/
structure CurriculumItem where
  id : Int
  _class : String
  title : String
  asset : Option Asset
  supplementary_assets : Option (List Asset)
  deriving Repr, DecidableEq

/-- The record `fetchLecture` resolves to, restricted to the two fields its
callers read. -/
structure LectureData where
  asset : Option Asset
  supplementary_assets : Option (List Asset)
  deriving Repr, DecidableEq

/-- The method `fetchLecture` as an oracle: course id, lecture id and the `allAssets`
flag to the fetched record or an HTTP failure. -/
abbrev LectureOracle := Int → Int → Bool → Except JsError LectureData

/-- The method `UdemyService._prepareStreamSource(courseId, el)` (lines 42-67).
Mirrors the source: only `lecture` items are touched; the optional chain
`el.asset?.asset_type.toLowerCase()` yields `undefined` when the asset is
absent but raises a `TypeError` when the asset exists without an
`asset_type`; `video`/`videomashup` assets have `stream_urls?.Video ||
media_sources` resolved (only when that value is truthy - an empty array is
truthy) and replaced by the converted streams; `presentation` assets are
re-fetched with `allAssets = true`; every failure is rethrown as
`EPREPARE_STREAM_SOURCE` with the inner message. -/
def _prepareStreamSource (lp : PlaylistResolver) (lect : LectureOracle)
    (courseId : Int) (el : CurriculumItem) : Except JsError CurriculumItem :=
  if el._class = "lecture" then
    match el.asset with
    | none => .ok el
    | some a =>
      match a.asset_type with
      | none => .error (mkError "EPREPARE_STREAM_SOURCE" jsTypeError.message)
      | some ty =>
        let assetType := jsToLower ty
        if assetType = "video" || assetType = "videomashup" then
          let streamUrls : Option (List StreamDescriptor) :=
            match a.stream_urls_Video with
            | some v => some v
            | none => a.media_sources
          match streamUrls with
          | none => .ok el
          | some surls =>
            match _convertToStreams lp (some surls) (jsStrTruthy a.media_license_token) with
            | .error e => .error (mkError "EPREPARE_STREAM_SOURCE" e.message)
            | .ok streams =>
              .ok { el with
                      asset := some { a with
                                        stream_urls_Video := none
                                        media_sources := none
                                        streams := some streams } }
        else if assetType = "presentation" then
          match lect courseId el.id true with
          | .error e => .error (mkError "EPREPARE_STREAM_SOURCE" e.message)
          | .ok l => .ok { el with asset := l.asset, supplementary_assets := l.supplementary_assets }
        else .ok el
  else .ok el

/-! ## Course listings (`fetchCourses` / `fetchSearchCourses`,
lines 254-269 and 282-297) -/

/-- A paginated platform response. -/
structure PaginatedCollection (α : Type) where
  count : Int
  next : Option String
  previous : Option String
  results : List α
  deriving Repr, DecidableEq

/-- The merged object the subscriber branch returns: `next`/`previous` become
arrays (or `null`). -/
structure MergedCollection (α : Type) where
  count : Int
  next : Option (List String)
  previous : Option (List String)
  results : List α
  deriving Repr, DecidableEq

/-- The merge of the subscribed and enrolled collections performed by
`fetchSearchCourses`/`fetchCourses` when the caller is a subscriber:
summed `count`, concatenated `results`, and `next`/`previous` collected into
arrays with `null` entries filtered out, the empty array collapsing to
`null`. -/
def mergeCollections {α : Type} (courses enrolledCourses : PaginatedCollection α) :
    MergedCollection α :=
  let next := [courses.next, enrolledCourses.next].filterMap id
  let previous := [courses.previous, enrolledCourses.previous].filterMap id
  { count := courses.count + enrolledCourses.count
    next := if next.length > 0 then some next else none
    previous := if previous.length > 0 then some previous else none
    results := courses.results ++ enrolledCourses.results }

/-! ## Course-content orchestration (`fetchCourseContent`, lines 338-409) -/

/-- One page of curriculum items as `#fetchUrl` delivers it. -/
structure PageResp where
  count : Int
  results : List CurriculumItem
  next : Option String
  deriving Repr, DecidableEq

/-- The continuation-url fixup of lines 362-363. `decodeURI` leaves the
percent-escapes `%5B`, `%5D` and `%2C` intact (they encode reserved
characters), so it is modelled as the identity and only the three explicit
replacements remain. -/
def decodeNextUrl (u : String) : String :=
  ((u.replace "%5B" "[").replace "%5D" "]").replace "%2C" ","

/-- The fixed asset-field selection constant (line 15). -/
def ASSETS_FIELDS : String :=
  "&fields[asset]=asset_type,title,filename,body,captions,media_sources,stream_urls,download_urls,external_url,media_license_token"

/-- The normalisation `(contentType || "less").toLowerCase()` (line 341), the absent argument
modelled as `""`. -/
def effectiveContentType (contentType : String) : String :=
  if contentType = "" then "less" else jsToLower contentType

/-- The initial page url built from the content type (lines 339-346). -/
def contentUrl (urlBase : String) (courseId : Int) (ct : String) : String :=
  let u0 := urlBase ++ "/api-2.0/courses/" ++ toString courseId ++
    "/cached-subscriber-curriculum-items?page_size=200"
  let u1 := if ct ≠ "less" then u0 ++ "&fields[lecture]=id,title" else u0
  let u2 := if ct = "all" then u1 ++ ",asset,supplementary_assets" else u1
  let u3 := if ct = "lectures" then u2 ++ ",asset" else u2
  let u4 := if ct = "attachments" then u3 ++ ",supplementary_assets" else u3
  if ct ≠ "less" then u4 ++ ASSETS_FIELDS else u4

/-- The page fetcher as an oracle: from a url to a page or an HTTP failure
(the cache sitting below `#fetchUrl` is not re-modelled at this level). -/
abbrev PageOracle := String → Except JsError PageResp

/-- The `do ... while (loadContent)` pagination loop (lines 353-367):
accumulate `results` across pages, following each decoded `next` url. `fuel`
bounds the number of pages; `none` means the loop was still running when the
fuel ran out (the loop has no intrinsic termination guarantee). -/
def paginateLoop (net : PageOracle) : Nat → String → Option PageResp →
    Option (Except JsError PageResp)
  | 0, _, _ => none
  | fuel + 1, url, acc =>
    match net url with
    | .error e => some (.error e)
    | .ok resp =>
      let acc2 : PageResp :=
        match acc with
        | none => resp
        | some a => { a with results := a.results ++ resp.results }
      match resp.next with
      | some nxt => paginateLoop net fuel (decodeNextUrl nxt) (some acc2)
      | none => some (.ok acc2)

/-- The placeholder chapter synthesized at lines 384-388. -/
def synthChapter : CurriculumItem :=
  { id := 0, _class := "chapter", title := "Chapter 1", asset := none,
    supplementary_assets := none }

/-- The degraded-mode hydration of lines 393-400: every `lecture` item has its
`asset` and `supplementary_assets` overwritten from a fresh lecture fetch
(`allAssets = false`); the first failure rejects the whole join. -/
def hydrateOne (lect : LectureOracle) (courseId : Int) (el : CurriculumItem) :
    Except JsError CurriculumItem :=
  if el._class = "lecture" then
    match lect courseId el.id false with
    | .error e => .error e
    | .ok l => .ok { el with asset := l.asset, supplementary_assets := l.supplementary_assets }
  else .ok el

/-- The join of the hydration promises, in item order. -/
def hydrateItems (lect : LectureOracle) (courseId : Int) :
    List CurriculumItem → Except JsError (List CurriculumItem)
  | [] => .ok []
  | el :: rest =>
    match hydrateOne lect courseId el with
    | .error e => .error e
    | .ok el2 => (hydrateItems lect courseId rest).map (fun r => el2 :: r)

/-- The per-item stream preparation join of `_prepareStreamsSource`
(lines 69-78): the first failure rejects the batch. -/
def prepareAll (lp : PlaylistResolver) (lect : LectureOracle) (courseId : Int) :
    List CurriculumItem → Except JsError (List CurriculumItem)
  | [] => .ok []
  | el :: rest =>
    match _prepareStreamSource lp lect courseId el with
    | .error e => .error e
    | .ok el2 => (prepareAll lp lect courseId rest).map (fun r => el2 :: r)

/-- The tail of `fetchCourseContent` after the content data is in hand
(lines 379-408): return `null` when the reported count is zero; read
`results[0]._class` (a `TypeError` on an empty result list); prepend the
synthesized chapter when the first item is not a chapter, incrementing
`count`; hydrate lectures when `loadContent` is set; recompute `count` as the
result length; then run stream preparation over every item, a failure being
rethrown as `EPREPARE_STREAMS_SOURCE`. -/
def processContent (lp : PlaylistResolver) (lect : LectureOracle) (courseId : Int)
    (loadContent : Bool) (d : PageResp) : Except JsError (Option PageResp) :=
  if d.count = 0 then .ok none
  else
    match d.results with
    | [] => .error jsTypeError
    | x :: _ =>
      let d1 := if x._class ≠ "chapter" then
          { d with results := synthChapter :: d.results, count := d.count + 1 }
        else d
      match (if loadContent then hydrateItems lect courseId d1.results else .ok d1.results) with
      | .error e => .error e
      | .ok res2 =>
        match prepareAll lp lect courseId res2 with
        | .error e => .error (mkError "EPREPARE_STREAMS_SOURCE" e.message)
        | .ok res3 => .ok (some { d1 with results := res3, count := (res3.length : Int) })

/-- The method `UdemyService.fetchCourseContent(courseId, contentType)` (lines 338-409).
`net` is the paginated page fetcher, `cached` the result of the unpaginated
`fetchCourse` fallback endpoint, `lect` the lecture fetcher and `lp` the
playlist resolver. The outer `none` means the pagination loop outran the
fuel. A page-fetch failure whose `error?.response?.status` is exactly 503
switches to the cached-curriculum data and marks hydration as pending
(`loadContent = contentType !== "less"`); any other failure propagates
unchanged. -/
def fetchCourseContentModel (net : PageOracle) (cached : Except JsError PageResp)
    (lect : LectureOracle) (lp : PlaylistResolver) (urlBase : String) (courseId : Int)
    (contentType : String) (fuel : Nat) : Option (Except JsError (Option PageResp)) :=
  let ct := effectiveContentType contentType
  match paginateLoop net fuel (contentUrl urlBase courseId ct) none with
  | none => none
  | some (.error e) =>
    if e.responseStatus = some 503 then
      match cached with
      | .error e2 => some (.error e2)
      | .ok c => some (processContent lp lect courseId (decide (ct ≠ "less")) c)
    else some (.error e)
  | some (.ok d) => some (processContent lp lect courseId false d)

/-! ## Helper lemmas about the `sources` object -/

theorem srcKeys_cons (e : String × SourceEntry) (rest : Sources) :
    srcKeys (e :: rest) = e.1 :: srcKeys rest := rfl

theorem srcGet_srcSet (s : Sources) (k : String) (v : SourceEntry) (k2 : String) :
    srcGet (srcSet s k v) k2 = if k2 = k then some v else srcGet s k2 := by
  induction s with
  | nil =>
    by_cases h : k2 = k
    · simp [srcSet, srcGet, h]
    · rw [if_neg h]
      simp only [srcSet, srcGet]
      rw [if_neg (fun hh => h hh.symm)]
  | cons e rest ih =>
    by_cases he : e.1 = k
    · by_cases h2 : k2 = k
      · simp only [srcSet, if_pos he, srcGet, if_pos h2]
        rw [if_pos h2.symm]
      · have h3 : ¬(k = k2) := fun hh => h2 hh.symm
        have h4 : ¬(e.1 = k2) := by rw [he]; exact h3
        simp only [srcSet, if_pos he, srcGet, if_neg h2, if_neg h3, if_neg h4]
    · by_cases h1 : e.1 = k2
      · have h2 : ¬(k2 = k) := by rw [← h1]; exact he
        simp only [srcSet, if_neg he, srcGet, if_pos h1, if_neg h2]
      · simp only [srcSet, if_neg he, srcGet, if_neg h1, ih]

theorem srcGet_none_iff (s : Sources) (k : String) :
    srcGet s k = none ↔ k ∉ srcKeys s := by
  induction s with
  | nil => simp [srcGet, srcKeys]
  | cons e rest ih =>
    by_cases he : e.1 = k
    · constructor
      · intro h
        rw [srcGet, if_pos he] at h
        cases h
      · intro h
        exact absurd (by rw [srcKeys_cons, he]; exact List.mem_cons_self _ _) h
    · rw [srcGet, if_neg he, srcKeys_cons, ih]
      constructor
      · intro h hk
        rcases List.mem_cons.mp hk with h1 | h1
        · exact he h1.symm
        · exact h h1
      · intro h h1
        exact h (List.mem_cons_of_mem _ h1)

theorem srcGet_isSome_iff (s : Sources) (k : String) :
    (srcGet s k).isSome = true ↔ k ∈ srcKeys s := by
  constructor
  · intro h
    by_contra hk
    rw [(srcGet_none_iff s k).mpr hk] at h
    simp at h
  · intro hk
    rcases h : srcGet s k with _ | v
    · exact absurd hk ((srcGet_none_iff s k).mp h)
    · rfl

theorem srcKeys_srcSet (s : Sources) (k : String) (v : SourceEntry) :
    srcKeys (srcSet s k v) = if k ∈ srcKeys s then srcKeys s else srcKeys s ++ [k] := by
  induction s with
  | nil => simp [srcSet, srcKeys]
  | cons e rest ih =>
    by_cases he : e.1 = k
    · have hk : k ∈ srcKeys (e :: rest) := by
        rw [srcKeys_cons, he]
        exact List.mem_cons_self _ _
      rw [srcSet, if_pos he, if_pos hk, srcKeys_cons, srcKeys_cons, he]
    · rw [srcSet, if_neg he, srcKeys_cons, ih]
      by_cases hk : k ∈ srcKeys rest
      · have hk2 : k ∈ srcKeys (e :: rest) := by
          rw [srcKeys_cons]
          exact List.mem_cons_of_mem _ hk
        rw [if_pos hk, if_pos hk2, srcKeys_cons]
      · have hk2 : k ∉ srcKeys (e :: rest) := by
          rw [srcKeys_cons]
          intro h
          rcases List.mem_cons.mp h with h1 | h1
          · exact he h1.symm
          · exact hk h1
        rw [if_neg hk, if_neg hk2, srcKeys_cons, List.cons_append]

theorem nodup_srcSet (s : Sources) (k : String) (v : SourceEntry)
    (h : (srcKeys s).Nodup) : (srcKeys (srcSet s k v)).Nodup := by
  rw [srcKeys_srcSet]
  by_cases hk : k ∈ srcKeys s
  · rw [if_pos hk]
    exact h
  · rw [if_neg hk]
    refine List.Nodup.append h (List.nodup_singleton k) ?_
    intro x hx hsing
    rw [List.mem_singleton] at hsing
    subst hsing
    exact hk hx

/-! ## Helper lemmas about running minima and maxima -/

theorem foldl_min_le_init (l : List Int) (a : Int) : l.foldl min a ≤ a := by
  induction l generalizing a with
  | nil => simp
  | cons x xs ih => exact le_trans (ih (min a x)) (min_le_left a x)

theorem foldl_min_le_mem (l : List Int) : ∀ (a x : Int), x ∈ l → l.foldl min a ≤ x := by
  induction l with
  | nil =>
    intro a x hx
    cases hx
  | cons y ys ih =>
    intro a x hx
    rcases List.mem_cons.mp hx with h | h
    · subst h
      exact le_trans (foldl_min_le_init ys (min a x)) (min_le_right a x)
    · exact ih (min a y) x h

theorem foldl_min_init_or_mem (l : List Int) : ∀ (a : Int),
    l.foldl min a = a ∨ l.foldl min a ∈ l := by
  induction l with
  | nil =>
    intro a
    left
    rfl
  | cons x xs ih =>
    intro a
    rcases ih (min a x) with h | h
    · rcases min_cases a x with ⟨hm, _⟩ | ⟨hm, _⟩
      · left
        rw [List.foldl_cons, h, hm]
      · right
        rw [List.foldl_cons, h, hm]
        exact List.mem_cons_self x xs
    · right
      rw [List.foldl_cons]
      exact List.mem_cons_of_mem x h

theorem foldl_max_ge_init (l : List Int) (a : Int) : a ≤ l.foldl max a := by
  induction l generalizing a with
  | nil => simp
  | cons x xs ih => exact le_trans (le_max_left a x) (ih (max a x))

theorem foldl_max_ge_mem (l : List Int) : ∀ (a x : Int), x ∈ l → x ≤ l.foldl max a := by
  induction l with
  | nil =>
    intro a x hx
    cases hx
  | cons y ys ih =>
    intro a x hx
    rcases List.mem_cons.mp hx with h | h
    · subst h
      exact le_trans (le_max_right a x) (foldl_max_ge_init ys (max a x))
    · exact ih (max a y) x h

theorem foldl_max_init_or_mem (l : List Int) : ∀ (a : Int),
    l.foldl max a = a ∨ l.foldl max a ∈ l := by
  induction l with
  | nil =>
    intro a
    left
    rfl
  | cons x xs ih =>
    intro a
    rcases ih (max a x) with h | h
    · rcases max_cases a x with ⟨hm, _⟩ | ⟨hm, _⟩
      · left
        rw [List.foldl_cons, h, hm]
      · right
        rw [List.foldl_cons, h, hm]
        exact List.mem_cons_self x xs
    · right
      rw [List.foldl_cons]
      exact List.mem_cons_of_mem x h

/-! ## Lemmas about the two phases of `_convertToStreams` -/

/-- The numeric quality an explicit (non-manifest, non-`"auto"`) descriptor
contributes to the running bounds, when its lower-cased label parses. -/
def explicitVal? (d : StreamDescriptor) : Option Int :=
  if d.type = dashMime then none
  else if jsToLower d.label = "auto" then none
  else parseIntJS (jsToLower d.label)

/-- The deferred playlist expansion an `"auto"` descriptor contributes when
the (corrected) encryption flag is off. -/
def autoDefer? (d : StreamDescriptor) : Option (String × Option String) :=
  if d.type = dashMime then none
  else if jsToLower d.label = "auto" then some (d.type, fileOrSrc d) else none

theorem phase1Step_minQ (e : Bool) (st : Phase1State) (d : StreamDescriptor) :
    (phase1Step e st d).minQ = (explicitVal? d).elim st.minQ (fun n => min st.minQ n) := by
  unfold phase1Step explicitVal?
  by_cases hd : d.type = dashMime
  · simp [hd]
  · by_cases ha : jsToLower d.label = "auto"
    · cases e <;> simp [hd, ha]
    · rcases hp : parseIntJS (jsToLower d.label) with _ | n
      · simp [hd, ha, hp]
      · simp only [if_neg hd, if_neg ha, hp, Option.elim_some]
        rcases lt_or_ge n st.minQ with h | h
        · rw [if_pos h, min_eq_right h.le]
        · rw [if_neg (not_lt.mpr h), min_eq_left h]

theorem phase1Step_maxQ (e : Bool) (st : Phase1State) (d : StreamDescriptor) :
    (phase1Step e st d).maxQ = (explicitVal? d).elim st.maxQ (fun n => max st.maxQ n) := by
  unfold phase1Step explicitVal?
  by_cases hd : d.type = dashMime
  · simp [hd]
  · by_cases ha : jsToLower d.label = "auto"
    · cases e <;> simp [hd, ha]
    · rcases hp : parseIntJS (jsToLower d.label) with _ | n
      · simp [hd, ha, hp]
      · simp only [if_neg hd, if_neg ha, hp, Option.elim_some]
        rcases lt_or_ge st.maxQ n with h | h
        · rw [if_pos h, max_eq_right h.le]
        · rw [if_neg (not_lt.mpr h), max_eq_left h]

theorem phase1Step_deferred (e : Bool) (st : Phase1State) (d : StreamDescriptor) :
    (phase1Step e st d).deferred =
      if e then st.deferred else st.deferred ++ (autoDefer? d).toList := by
  unfold phase1Step autoDefer?
  by_cases hd : d.type = dashMime
  · cases e <;> simp [hd]
  · by_cases ha : jsToLower d.label = "auto"
    · cases e <;> simp [hd, ha]
    · rcases hp : parseIntJS (jsToLower d.label) with _ | n <;> cases e <;> simp [hd, ha, hp]

theorem phase1Step_sources (e : Bool) (st : Phase1State) (d : StreamDescriptor) :
    (phase1Step e st d).sources =
      if d.type = dashMime then st.sources
      else srcSet st.sources (jsToLower d.label) ⟨d.type, fileOrSrc d⟩ := by
  unfold phase1Step
  by_cases hd : d.type = dashMime
  · simp [hd]
  · by_cases ha : jsToLower d.label = "auto"
    · cases e <;> simp [hd, ha]
    · rcases hp : parseIntJS (jsToLower d.label) with _ | n <;> simp [hd, ha, hp]

theorem phase1_foldl_minQ (e : Bool) :
    ∀ (l : List StreamDescriptor) (st : Phase1State),
      (l.foldl (phase1Step e) st).minQ = (l.filterMap explicitVal?).foldl min st.minQ := by
  intro l
  induction l with
  | nil =>
    intro st
    rfl
  | cons d ds ih =>
    intro st
    rw [List.foldl_cons, ih, List.filterMap_cons]
    rcases hv : explicitVal? d with _ | n
    · simp only [phase1Step_minQ, hv, Option.elim_none]
    · simp only [phase1Step_minQ, hv, Option.elim_some, List.foldl_cons]

theorem phase1_foldl_maxQ (e : Bool) :
    ∀ (l : List StreamDescriptor) (st : Phase1State),
      (l.foldl (phase1Step e) st).maxQ = (l.filterMap explicitVal?).foldl max st.maxQ := by
  intro l
  induction l with
  | nil =>
    intro st
    rfl
  | cons d ds ih =>
    intro st
    rw [List.foldl_cons, ih, List.filterMap_cons]
    rcases hv : explicitVal? d with _ | n
    · simp only [phase1Step_maxQ, hv, Option.elim_none]
    · simp only [phase1Step_maxQ, hv, Option.elim_some, List.foldl_cons]

theorem phase1_foldl_deferred (e : Bool) :
    ∀ (l : List StreamDescriptor) (st : Phase1State),
      (l.foldl (phase1Step e) st).deferred =
        if e then st.deferred else st.deferred ++ l.filterMap autoDefer? := by
  intro l
  induction l with
  | nil =>
    intro st
    cases e <;> simp
  | cons d ds ih =>
    intro st
    rw [List.foldl_cons, ih, List.filterMap_cons]
    cases e
    · rcases hv : autoDefer? d with _ | tu <;>
        simp [phase1Step_deferred, hv, List.append_assoc]
    · simp [phase1Step_deferred]

theorem phase1_foldl_sources_preserved (e : Bool) :
    ∀ (l : List StreamDescriptor) (st : Phase1State) (k : String),
      (srcGet st.sources k).isSome = true →
      (srcGet ((l.foldl (phase1Step e) st).sources) k).isSome = true := by
  intro l
  induction l with
  | nil =>
    intro st k h
    exact h
  | cons d ds ih =>
    intro st k h
    rw [List.foldl_cons]
    refine ih (phase1Step e st d) k ?_
    rw [phase1Step_sources]
    by_cases hd : d.type = dashMime
    · rw [if_pos hd]
      exact h
    · rw [if_neg hd, srcGet_srcSet]
      by_cases hk : k = jsToLower d.label
      · rw [if_pos hk]
        rfl
      · rw [if_neg hk]
        exact h

theorem phase1_foldl_registers (e : Bool) :
    ∀ (l : List StreamDescriptor) (st : Phase1State) (d : StreamDescriptor),
      d ∈ l → d.type ≠ dashMime →
      (srcGet ((l.foldl (phase1Step e) st).sources) (jsToLower d.label)).isSome = true := by
  intro l
  induction l with
  | nil =>
    intro st d hd
    cases hd
  | cons x xs ih =>
    intro st d hd hdash
    rcases List.mem_cons.mp hd with h | h
    · subst h
      rw [List.foldl_cons]
      refine phase1_foldl_sources_preserved e xs (phase1Step e st d) (jsToLower d.label) ?_
      rw [phase1Step_sources, if_neg hdash, srcGet_srcSet, if_pos rfl]
      rfl
    · rw [List.foldl_cons]
      exact ih (phase1Step e st x) d h hdash

theorem phase1_foldl_keys (e : Bool) :
    ∀ (l : List StreamDescriptor) (st : Phase1State), (∀ d ∈ l, d.type ≠ dashMime) →
      ∀ k, ((srcGet ((l.foldl (phase1Step e) st).sources) k).isSome = true ↔
        (srcGet st.sources k).isSome = true ∨ k ∈ l.map (fun d => jsToLower d.label)) := by
  intro l
  induction l with
  | nil =>
    intro st _ k
    simp
  | cons d ds ih =>
    intro st hdash k
    rw [List.foldl_cons, List.map_cons]
    rw [ih (phase1Step e st d) (fun x hx => hdash x (List.mem_cons_of_mem d hx)) k]
    rw [phase1Step_sources, if_neg (hdash d (List.mem_cons_self d ds)), srcGet_srcSet]
    by_cases hk : k = jsToLower d.label
    · subst hk
      simp
    · rw [if_neg hk]
      constructor
      · intro h
        rcases h with h | h
        · exact Or.inl h
        · exact Or.inr (List.mem_cons_of_mem _ h)
      · intro h
        rcases h with h | h
        · exact Or.inl h
        · rcases List.mem_cons.mp h with h1 | h1
          · exact absurd h1 hk
          · exact Or.inr h1

theorem phase1_foldl_nodup (e : Bool) :
    ∀ (l : List StreamDescriptor) (st : Phase1State),
      (srcKeys st.sources).Nodup → (srcKeys ((l.foldl (phase1Step e) st).sources)).Nodup := by
  intro l
  induction l with
  | nil =>
    intro st h
    exact h
  | cons d ds ih =>
    intro st h
    rw [List.foldl_cons]
    refine ih (phase1Step e st d) ?_
    rw [phase1Step_sources]
    by_cases hd : d.type = dashMime
    · rw [if_pos hd]
      exact h
    · rw [if_neg hd]
      exact nodup_srcSet _ _ _ h

theorem phase1_foldl_binding (e : Bool) :
    ∀ (l : List StreamDescriptor) (st : Phase1State) (k : String),
      (∀ d ∈ l, d.type = dashMime ∨ jsToLower d.label ≠ k) →
      srcGet ((l.foldl (phase1Step e) st).sources) k = srcGet st.sources k := by
  intro l
  induction l with
  | nil =>
    intro st k _
    rfl
  | cons d ds ih =>
    intro st k hl
    rw [List.foldl_cons, ih (phase1Step e st d) k (fun x hx => hl x (List.mem_cons_of_mem d hx))]
    rw [phase1Step_sources]
    rcases hl d (List.mem_cons_self d ds) with h | h
    · rw [if_pos h]
    · by_cases hd : d.type = dashMime
      · rw [if_pos hd]
      · rw [if_neg hd, srcGet_srcSet, if_neg (fun hh => h hh.symm)]

theorem find?_cons_eq {α : Type} (p : α → Bool) (a : α) (l : List α) :
    (a :: l).find? p = if p a then some a else l.find? p := by
  by_cases h : p a
  · rw [List.find?_cons_of_pos l h, if_pos h]
  · rw [List.find?_cons_of_neg l h, if_neg h]

theorem mergeItem_sources (t : String) (st : Phase2State) (i : PlaylistEntry) :
    (mergeItem t st i).sources =
      if (srcGet st.sources (toString i.quality)).isSome = true then st.sources
      else srcSet st.sources (toString i.quality) ⟨t, some i.url⟩ := rfl

theorem mergeItem_minQ (t : String) (st : Phase2State) (i : PlaylistEntry) :
    (mergeItem t st i).minQ = min st.minQ i.quality := by
  unfold mergeItem
  rcases lt_or_ge i.quality st.minQ with h | h
  · simp only [if_pos h]
    rw [min_eq_right h.le]
  · simp only [if_neg (not_lt.mpr h)]
    rw [min_eq_left h]

theorem mergeItem_maxQ (t : String) (st : Phase2State) (i : PlaylistEntry) :
    (mergeItem t st i).maxQ = max st.maxQ i.quality := by
  unfold mergeItem
  rcases lt_or_ge st.maxQ i.quality with h | h
  · simp only [if_pos h]
    rw [max_eq_right h.le]
  · simp only [if_neg (not_lt.mpr h)]
    rw [max_eq_left h]

theorem mergeItem_preserves (t : String) (st : Phase2State) (i : PlaylistEntry)
    (k : String) (v : SourceEntry) (h : srcGet st.sources k = some v) :
    srcGet (mergeItem t st i).sources k = some v := by
  rw [mergeItem_sources]
  by_cases hp : (srcGet st.sources (toString i.quality)).isSome = true
  · rw [if_pos hp]
    exact h
  · rw [if_neg hp, srcGet_srcSet]
    have hk : ¬(k = toString i.quality) := by
      intro hh
      rw [← hh, h] at hp
      exact hp rfl
    rw [if_neg hk]
    exact h

theorem mergeFold_minQ (t : String) :
    ∀ (pl : List PlaylistEntry) (st : Phase2State),
      (pl.foldl (mergeItem t) st).minQ = (pl.map PlaylistEntry.quality).foldl min st.minQ := by
  intro pl
  induction pl with
  | nil =>
    intro st
    rfl
  | cons i rest ih =>
    intro st
    rw [List.foldl_cons, ih, List.map_cons, List.foldl_cons, mergeItem_minQ]

theorem mergeFold_maxQ (t : String) :
    ∀ (pl : List PlaylistEntry) (st : Phase2State),
      (pl.foldl (mergeItem t) st).maxQ = (pl.map PlaylistEntry.quality).foldl max st.maxQ := by
  intro pl
  induction pl with
  | nil =>
    intro st
    rfl
  | cons i rest ih =>
    intro st
    rw [List.foldl_cons, ih, List.map_cons, List.foldl_cons, mergeItem_maxQ]

theorem mergeFold_preserves (t : String) :
    ∀ (pl : List PlaylistEntry) (st : Phase2State) (k : String) (v : SourceEntry),
      srcGet st.sources k = some v →
      srcGet ((pl.foldl (mergeItem t) st).sources) k = some v := by
  intro pl
  induction pl with
  | nil =>
    intro st k v h
    exact h
  | cons i rest ih =>
    intro st k v h
    rw [List.foldl_cons]
    exact ih (mergeItem t st i) k v (mergeItem_preserves t st i k v h)

theorem mergeFold_fresh (t : String) :
    ∀ (pl : List PlaylistEntry) (st : Phase2State) (k : String),
      srcGet st.sources k = none →
      srcGet ((pl.foldl (mergeItem t) st).sources) k =
        (pl.find? (fun i => toString i.quality == k)).map
          (fun i => (⟨t, some i.url⟩ : SourceEntry)) := by
  intro pl
  induction pl with
  | nil =>
    intro st k h
    simp only [List.foldl_nil, List.find?_nil, Option.map_none']
    exact h
  | cons i rest ih =>
    intro st k h
    rw [List.foldl_cons, find?_cons_eq]
    by_cases hki : toString i.quality = k
    · have hnone : srcGet st.sources (toString i.quality) = none := by
        rw [hki]
        exact h
      have hmerge : srcGet (mergeItem t st i).sources k = some ⟨t, some i.url⟩ := by
        rw [mergeItem_sources]
        rw [if_neg (by rw [hnone]; intro hh; exact Bool.noConfusion hh)]
        rw [srcGet_srcSet, if_pos hki.symm]
      rw [mergeFold_preserves t rest (mergeItem t st i) k _ hmerge]
      have hb : (toString i.quality == k) = true := beq_iff_eq.mpr hki
      simp only [hb, if_true, Option.map_some']
    · have hstill : srcGet (mergeItem t st i).sources k = none := by
        rw [mergeItem_sources]
        by_cases hp : (srcGet st.sources (toString i.quality)).isSome = true
        · rw [if_pos hp]
          exact h
        · rw [if_neg hp, srcGet_srcSet, if_neg (fun hh => hki hh.symm)]
          exact h
      rw [ih (mergeItem t st i) k hstill]
      have hb : (toString i.quality == k) = false := by
        simpa using hki
      rw [hb, if_neg (fun hh => Bool.noConfusion hh)]

theorem mergeFold_nodup (t : String) :
    ∀ (pl : List PlaylistEntry) (st : Phase2State),
      (srcKeys st.sources).Nodup → (srcKeys ((pl.foldl (mergeItem t) st).sources)).Nodup := by
  intro pl
  induction pl with
  | nil =>
    intro st h
    exact h
  | cons i rest ih =>
    intro st h
    rw [List.foldl_cons]
    refine ih (mergeItem t st i) ?_
    rw [mergeItem_sources]
    by_cases hp : (srcGet st.sources (toString i.quality)).isSome = true
    · rw [if_pos hp]
      exact h
    · rw [if_neg hp]
      exact nodup_srcSet _ _ _ h

theorem mergeFold_isSome_of (t : String) :
    ∀ (pl : List PlaylistEntry) (st : Phase2State) (i : PlaylistEntry),
      i ∈ pl →
      (srcGet ((pl.foldl (mergeItem t) st).sources) (toString i.quality)).isSome = true := by
  intro pl
  induction pl with
  | nil =>
    intro st i hi
    cases hi
  | cons x rest ih =>
    intro st i hi
    rcases List.mem_cons.mp hi with h | h
    · subst h
      rw [List.foldl_cons]
      have hsome : (srcGet (mergeItem t st i).sources (toString i.quality)).isSome = true := by
        rw [mergeItem_sources]
        by_cases hp : (srcGet st.sources (toString i.quality)).isSome = true
        · rw [if_pos hp]
          exact hp
        · rw [if_neg hp, srcGet_srcSet, if_pos rfl]
          rfl
      rcases ho : srcGet (mergeItem t st i).sources (toString i.quality) with _ | v
      · rw [ho] at hsome
        exact absurd hsome (by simp)
      · rw [mergeFold_preserves t rest (mergeItem t st i) _ v ho]
        rfl
    · rw [List.foldl_cons]
      exact ih (mergeItem t st x) i h

/-! ## Reductions of `_convertToStreams` to the two phases -/

theorem convert_unencrypted (lp : PlaylistResolver) (l : List StreamDescriptor) :
    _convertToStreams lp (some l) false =
      .ok (assemble false (phase2 lp (phase1 false l).deferred
        ⟨(phase1 false l).sources, (phase1 false l).minQ, (phase1 false l).maxQ⟩)) := by
  unfold _convertToStreams convertInner
  simp [ite_self]

theorem convert_encrypted_allfiltered (lp : PlaylistResolver) (l : List StreamDescriptor)
    (hf : encFilter l = .ok []) :
    _convertToStreams lp (some l) true =
      .ok (assemble true
        ⟨(phase1 true l).sources, (phase1 true l).minQ, (phase1 true l).maxQ⟩) := by
  have hd : (phase1 true l).deferred = [] := by
    have h := phase1_foldl_deferred true l ⟨[], MAX_SAFE_INTEGER, MIN_SAFE_INTEGER, []⟩
    simpa [phase1] using h
  unfold _convertToStreams convertInner
  simp [hf, hd, phase2]

theorem encFilter_all_marked : ∀ (l : List StreamDescriptor),
    (∀ d ∈ l, ∃ u, fileOrSrc d = some u ∧ strIncludes u encryptedMarker = true) →
    encFilter l = .ok [] := by
  intro l
  induction l with
  | nil =>
    intro _
    rfl
  | cons d ds ih =>
    intro h
    rcases h d (List.mem_cons_self d ds) with ⟨u, hu, hm⟩
    have hr := ih (fun x hx => h x (List.mem_cons_of_mem d hx))
    simp only [encFilter, hu, hr, hm, if_true]

/-! ## Parsing side conditions -/

theorem jsToLower_ne_auto_of_parse {d : StreamDescriptor} {n : Int}
    (h : parseIntJS (jsToLower d.label) = some n) : jsToLower d.label ≠ "auto" := by
  intro hh
  rw [hh] at h
  have hz : parseIntJS "auto" = none := rfl
  rw [hz] at h
  exact Option.noConfusion h

theorem explicitVal?_eq_parse {d : StreamDescriptor} (hdash : d.type ≠ dashMime)
    {n : Int} (hp : parseIntJS (jsToLower d.label) = some n) :
    explicitVal? d = some n := by
  unfold explicitVal?
  rw [if_neg hdash, if_neg (jsToLower_ne_auto_of_parse hp), hp]

theorem autoDefer?_eq_none_of_parse {d : StreamDescriptor} {n : Int}
    (hp : parseIntJS (jsToLower d.label) = some n) : autoDefer? d = none := by
  unfold autoDefer?
  by_cases hd : d.type = dashMime
  · rw [if_pos hd]
  · rw [if_neg hd, if_neg (jsToLower_ne_auto_of_parse hp)]

theorem autoDefer?_eq_none_of_ne_auto {d : StreamDescriptor}
    (h : jsToLower d.label ≠ "auto") : autoDefer? d = none := by
  unfold autoDefer?
  by_cases hd : d.type = dashMime
  · rw [if_pos hd]
  · rw [if_neg hd, if_neg h]

theorem autoDefer?_auto {d : StreamDescriptor} (hdash : d.type ≠ dashMime)
    (h : jsToLower d.label = "auto") : autoDefer? d = some (d.type, fileOrSrc d) := by
  unfold autoDefer?
  rw [if_neg hdash, if_pos h]

/-! ## Projections of the assembled result -/

theorem assemble_minQuality (b : Bool) (s2 : Phase2State) :
    (assemble b s2).minQuality =
      if s2.minQ = MAX_SAFE_INTEGER then
        (if (srcGet s2.sources "auto").isSome then some "auto" else none)
      else some (toString s2.minQ) := rfl

theorem assemble_maxQuality (b : Bool) (s2 : Phase2State) :
    (assemble b s2).maxQuality =
      if s2.maxQ = MIN_SAFE_INTEGER then
        (if (srcGet s2.sources "auto").isSome then some "auto" else none)
      else some (toString s2.maxQ) := rfl

theorem assemble_mk_minQuality (b : Bool) (src : Sources) (mn mx : Int) :
    (assemble b ⟨src, mn, mx⟩).minQuality =
      if mn = MAX_SAFE_INTEGER then
        (if (srcGet src "auto").isSome then some "auto" else none)
      else some (toString mn) := rfl

theorem assemble_mk_maxQuality (b : Bool) (src : Sources) (mn mx : Int) :
    (assemble b ⟨src, mn, mx⟩).maxQuality =
      if mx = MIN_SAFE_INTEGER then
        (if (srcGet src "auto").isSome then some "auto" else none)
      else some (toString mx) := rfl

theorem assemble_mk_sources (b : Bool) (src : Sources) (mn mx : Int) :
    (assemble b ⟨src, mn, mx⟩).sources = src := rfl

theorem phase2_nil (lp : PlaylistResolver) (st : Phase2State) : phase2 lp [] st = st := rfl

theorem phase2_single (lp : PlaylistResolver) (t : String) (u : Option String)
    (st : Phase2State) : phase2 lp [(t, u)] st = (lp u).foldl (mergeItem t) st := rfl

/-- The numeric values of the lower-cased labels of a descriptor list. -/
def numericVals (l : List StreamDescriptor) : List Int :=
  l.filterMap (fun d => parseIntJS (jsToLower d.label))

/-! ## Cache lemmas -/

theorem getEntry_setEntry (now : Nat) (key : String) (v : JsValue) :
    ∀ (entries : List (String × JsValue × Nat)),
      getEntry key (setEntry now key v entries) = some (v, now + stdTTL) := by
  intro entries
  induction entries with
  | nil => simp [setEntry, getEntry]
  | cons e rest ih =>
    by_cases he : e.1 = key
    · simp [setEntry, getEntry, he]
    · simp [setEntry, getEntry, he, ih]

theorem cacheGet_cacheSet_same (t t0 : Nat) (st : CacheState) (url : String) (v : JsValue) :
    cacheGet t (cacheSet t0 st url v) url = if t < t0 + stdTTL then some v else none := by
  unfold cacheGet cacheSet
  rw [getEntry_setEntry]

/-! ## Orchestrator lemmas -/

theorem hydrateItems_length (lect : LectureOracle) (courseId : Int) :
    ∀ (items out : List CurriculumItem),
      hydrateItems lect courseId items = .ok out → out.length = items.length := by
  intro items
  induction items with
  | nil =>
    intro out h
    cases h
    rfl
  | cons el rest ih =>
    intro out h
    unfold hydrateItems at h
    rcases ho : hydrateOne lect courseId el with e | el2
    · rw [ho] at h
      exact Except.noConfusion h
    · rw [ho] at h
      rcases hr : hydrateItems lect courseId rest with e | out2
      · rw [hr] at h
        exact Except.noConfusion h
      · rw [hr] at h
        simp only [Except.map] at h
        cases h
        simp [ih out2 hr]

theorem prepareAll_length (lp : PlaylistResolver) (lect : LectureOracle) (courseId : Int) :
    ∀ (items out : List CurriculumItem),
      prepareAll lp lect courseId items = .ok out → out.length = items.length := by
  intro items
  induction items with
  | nil =>
    intro out h
    cases h
    rfl
  | cons el rest ih =>
    intro out h
    unfold prepareAll at h
    rcases ho : _prepareStreamSource lp lect courseId el with e | el2
    · rw [ho] at h
      exact Except.noConfusion h
    · rw [ho] at h
      rcases hr : prepareAll lp lect courseId rest with e | out2
      · rw [hr] at h
        exact Except.noConfusion h
      · rw [hr] at h
        simp only [Except.map] at h
        cases h
        simp [ih out2 hr]

theorem hydrateOne_synth (lect : LectureOracle) (courseId : Int) :
    hydrateOne lect courseId synthChapter = .ok synthChapter := rfl

theorem prepare_synth (lp : PlaylistResolver) (lect : LectureOracle) (courseId : Int) :
    _prepareStreamSource lp lect courseId synthChapter = .ok synthChapter := rfl

theorem hydrateItems_cons_ok (lect : LectureOracle) (courseId : Int)
    (el el2 : CurriculumItem) (rest out : List CurriculumItem)
    (hel : hydrateOne lect courseId el = .ok el2)
    (h : hydrateItems lect courseId (el :: rest) = .ok out) :
    ∃ out2, out = el2 :: out2 ∧ hydrateItems lect courseId rest = .ok out2 := by
  unfold hydrateItems at h
  rw [hel] at h
  rcases hr : hydrateItems lect courseId rest with e | out2
  · rw [hr] at h
    exact Except.noConfusion h
  · rw [hr] at h
    simp only [Except.map] at h
    cases h
    exact ⟨out2, rfl, rfl⟩

theorem prepareAll_cons_ok (lp : PlaylistResolver) (lect : LectureOracle) (courseId : Int)
    (el el2 : CurriculumItem) (rest out : List CurriculumItem)
    (hel : _prepareStreamSource lp lect courseId el = .ok el2)
    (h : prepareAll lp lect courseId (el :: rest) = .ok out) :
    ∃ out2, out = el2 :: out2 ∧ prepareAll lp lect courseId rest = .ok out2 := by
  unfold prepareAll at h
  rw [hel] at h
  rcases hr : prepareAll lp lect courseId rest with e | out2
  · rw [hr] at h
    exact Except.noConfusion h
  · rw [hr] at h
    simp only [Except.map] at h
    cases h
    exact ⟨out2, rfl, rfl⟩

/-- Anatomy of a successful `processContent` run: the count was nonzero, the
results were non-empty, the (possibly chapter-prepended) results passed
hydration (or were passed through when hydration was off) and stream
preparation, and the returned record carries the prepared results with the
recomputed count. -/
theorem processContent_ok_shape (lp : PlaylistResolver) (lect : LectureOracle)
    (courseId : Int) (loadContent : Bool) (d : PageResp) (r : PageResp)
    (h : processContent lp lect courseId loadContent d = .ok (some r)) :
    ∃ x xs res2 res3,
      d.count ≠ 0 ∧ d.results = x :: xs ∧
      (if loadContent then
        hydrateItems lect courseId
          (if x._class ≠ "chapter" then synthChapter :: x :: xs else x :: xs)
       else .ok (if x._class ≠ "chapter" then synthChapter :: x :: xs else x :: xs)) =
        .ok res2 ∧
      prepareAll lp lect courseId res2 = .ok res3 ∧
      r.results = res3 ∧ r.count = (res3.length : Int) := by
  unfold processContent at h
  by_cases h0 : d.count = 0
  · rw [if_pos h0] at h
    injection h with h
    exact Option.noConfusion h
  · rw [if_neg h0] at h
    rcases hres : d.results with _ | ⟨x, xs⟩
    · rw [hres] at h
      exact Except.noConfusion h
    · rw [hres] at h
      dsimp only at h
      refine ⟨x, xs, ?_⟩
      by_cases hch : x._class ≠ "chapter"
      · rw [if_pos hch] at h
        rw [if_pos hch]
        dsimp only at h
        rcases hhyd : (if loadContent then
            hydrateItems lect courseId (synthChapter :: x :: xs)
          else .ok (synthChapter :: x :: xs)) with e | res2
        · rw [hhyd] at h
          exact Except.noConfusion h
        · rw [hhyd] at h
          try dsimp only at h
          rcases hprep : prepareAll lp lect courseId res2 with e | res3
          · rw [hprep] at h
            exact Except.noConfusion h
          · rw [hprep] at h
            try dsimp only at h
            injection h with h
            injection h with h
            subst h
            exact ⟨res2, res3, h0, rfl, rfl, hprep, rfl, rfl⟩
      · rw [if_neg hch] at h
        rw [if_neg hch]
        rw [hres] at h
        rcases hhyd : (if loadContent then
            hydrateItems lect courseId (x :: xs)
          else .ok (x :: xs)) with e | res2
        · rw [hhyd] at h
          exact Except.noConfusion h
        · rw [hhyd] at h
          try dsimp only at h
          rcases hprep : prepareAll lp lect courseId res2 with e | res3
          · rw [hprep] at h
            exact Except.noConfusion h
          · rw [hprep] at h
            try dsimp only at h
            injection h with h
            injection h with h
            subst h
            exact ⟨res2, res3, h0, rfl, rfl, hprep, rfl, rfl⟩

/-! ## Claim theorems -/

/-- Claim C1 counterexample: an empty (but present) descriptor list does not
make `_convertToStreams` fail at all - it resolves to empty sources with null
bounds - and for an absent list the failure the caller receives is named
`ECONVERT_TO_STREAMS` (the inner `ENO_STREAMS` is swallowed by the `catch`
of lines 174-176), so the claim fails on both counts. -/
theorem C1_counterexample :
    _convertToStreams (fun _ => []) (some []) false =
      .ok { minQuality := none, maxQuality := none, isEncrypted := false, sources := [] } ∧
    _convertToStreams (fun _ => []) none false =
      .error { name := "ECONVERT_TO_STREAMS", message := "No streams found to convert",
               responseStatus := none } := by
  constructor
  · rfl
  · rfl

/-- Claim C1 (amended): only an absent descriptor list makes stream-source
resolution fail; the inner error is named `ENO_STREAMS` but the caller
receives `ECONVERT_TO_STREAMS` carrying the `ENO_STREAMS` message. An empty
but present list succeeds with empty sources, null bounds and the hint
returned as the encryption flag. -/
theorem C1_absent_fails_empty_succeeds (lp : PlaylistResolver) (hint : Bool) :
    _convertToStreams lp none hint =
      .error (mkError "ECONVERT_TO_STREAMS" "No streams found to convert") ∧
    _convertToStreams lp (some []) hint =
      .ok { minQuality := none, maxQuality := none, isEncrypted := hint, sources := [] } := by
  constructor
  · rfl
  · cases hint
    · rfl
    · rfl

/-- Claim C5: merging the subscribed and enrolled collections sums the
counts, concatenates the result sequences in that order, and collects the
two `next` (respectively `previous`) cursors into an array with nulls
filtered out, collapsing to null exactly when both cursors are null. -/
theorem C5_merge_paginated {α : Type} (courses enrolledCourses : PaginatedCollection α) :
    (mergeCollections courses enrolledCourses).count =
      courses.count + enrolledCourses.count ∧
    (mergeCollections courses enrolledCourses).results =
      courses.results ++ enrolledCourses.results ∧
    (mergeCollections courses enrolledCourses).next =
      (if [courses.next, enrolledCourses.next].filterMap id = [] then none
       else some ([courses.next, enrolledCourses.next].filterMap id)) ∧
    ((mergeCollections courses enrolledCourses).next = none ↔
      courses.next = none ∧ enrolledCourses.next = none) ∧
    (mergeCollections courses enrolledCourses).previous =
      (if [courses.previous, enrolledCourses.previous].filterMap id = [] then none
       else some ([courses.previous, enrolledCourses.previous].filterMap id)) ∧
    ((mergeCollections courses enrolledCourses).previous = none ↔
      courses.previous = none ∧ enrolledCourses.previous = none) := by
  rcases courses with ⟨c1, n1, p1, r1⟩
  rcases enrolledCourses with ⟨c2, n2, p2, r2⟩
  refine ⟨rfl, rfl, ?_, ?_, ?_, ?_⟩ <;>
    cases n1 <;> cases n2 <;> cases p1 <;> cases p2 <;> simp [mergeCollections]

/-- Claim C2 counterexample: a single descriptor whose url contains
`/encrypted-files`, with `encryptedHint = true`, empties the filter, yet the
result's `isEncrypted` flag is `true` - line 102 keeps the hint exactly when
the filtered set is empty - contradicting the claimed flip to `false`. -/
theorem C2_counterexample :
    _convertToStreams (fun _ => [])
      (some [{ type := "video/mp4", label := "720",
               file := some "https://host/encrypted-files/a.mp4", src := none }]) true =
      .ok { minQuality := some "720", maxQuality := some "720", isEncrypted := true,
            sources := [("720", { type := "video/mp4",
                                  url := some "https://host/encrypted-files/a.mp4" })] } := by
  rfl

/-- Claim C2 (amended): when `encryptedHint = true` and every descriptor's
url contains the encrypted-file marker, filtering empties the candidate set,
the result's `isEncrypted` flag stays `true` (the code flips the flag to
`false` only when the filter leaves something), and every descriptor of the
original, unfiltered list whose mime type is not the manifest type is
registered in `sources` under its lower-cased label. -/
theorem C2_allmarked_keeps_hint (lp : PlaylistResolver) (l : List StreamDescriptor)
    (_hne : l ≠ [])
    (hall : ∀ d ∈ l, ∃ u, fileOrSrc d = some u ∧ strIncludes u encryptedMarker = true) :
    ∃ r, _convertToStreams lp (some l) true = .ok r ∧
      r.isEncrypted = true ∧
      ∀ d ∈ l, d.type ≠ dashMime →
        (srcGet r.sources (jsToLower d.label)).isSome = true := by
  have hf := encFilter_all_marked l hall
  rw [convert_encrypted_allfiltered lp l hf]
  refine ⟨_, rfl, rfl, ?_⟩
  intro d hd hdash
  exact phase1_foldl_registers true l ⟨[], MAX_SAFE_INTEGER, MIN_SAFE_INTEGER, []⟩ d hd hdash

/-- Claim C2 witness: concrete run of the amended statement. -/
theorem C2_allmarked_keeps_hint_witness :
    ∃ r, _convertToStreams (fun _ => [])
        (some [{ type := "video/mp4", label := "720",
                 file := some "https://host/encrypted-files/a.mp4", src := none }]) true =
        .ok r ∧
      r.isEncrypted = true ∧
      ∀ d ∈ [({ type := "video/mp4", label := "720",
                file := some "https://host/encrypted-files/a.mp4",
                src := none } : StreamDescriptor)], d.type ≠ dashMime →
        (srcGet r.sources (jsToLower d.label)).isSome = true := by
  refine C2_allmarked_keeps_hint (fun _ => []) _ (by decide) ?_
  intro d hd
  rw [List.mem_singleton] at hd
  subst hd
  exact ⟨"https://host/encrypted-files/a.mp4", rfl, by decide⟩

/-- Claim C8 counterexample: the hit test `if (cachedData)` treats a falsy
cached response (here the empty-string body) as a miss, so a repeat of the
same request one second later - well within the TTL - issues a second
network call. -/
theorem C8_counterexample :
    (fetchUrl (fun _ _ => .ok (.vstr "")) 1
      ((fetchUrl (fun _ _ => .ok (.vstr "")) 0 ⟨[]⟩ "GET" "u").2.1) "GET" "u").2.2 = 1 := by
  rfl

/-- Claim C8 (amended): provided the stored response is truthy, a repeated
identical request within the TTL window (3600s) is served from the cache
with no additional network call, and the first identical request at or after
expiry issues exactly one additional network call (re-storing the fresh
response); a falsy stored response is treated as a miss and re-fetched. -/
theorem C8_cache_ttl (net : String → String → Except JsError JsValue)
    (t0 : Nat) (st : CacheState) (m url : String) (v : JsValue)
    (hmiss : cacheGet t0 st url = none)
    (hnet : net m url = .ok v)
    (hv : jsTruthy v = true) :
    fetchUrl net t0 st m url = (.ok v, cacheSet t0 st url v, 1) ∧
    (∀ t, t < t0 + stdTTL →
      fetchUrl net t (cacheSet t0 st url v) m url = (.ok v, cacheSet t0 st url v, 0)) ∧
    (∀ t, t0 + stdTTL ≤ t →
      fetchUrl net t (cacheSet t0 st url v) m url =
        (.ok v, cacheSet t (cacheSet t0 st url v) url v, 1)) := by
  refine ⟨?_, ?_, ?_⟩
  · simp only [fetchUrl, hmiss, hnet]
  · intro t ht
    have hget : cacheGet t (cacheSet t0 st url v) url = some v := by
      rw [cacheGet_cacheSet_same, if_pos ht]
    simp only [fetchUrl, hget, hv, if_true]
  · intro t ht
    have hget : cacheGet t (cacheSet t0 st url v) url = none := by
      rw [cacheGet_cacheSet_same, if_neg (not_lt.mpr ht)]
    simp only [fetchUrl, hget, hnet]

/-- Claim C8 witness: concrete runs of the three parts of the amended
statement (store at time 0, hit at time 5, refetch at time 3600). -/
theorem C8_cache_ttl_witness :
    fetchUrl (fun _ _ => .ok (.vobj 1)) 0 ⟨[]⟩ "GET" "u" =
      (.ok (.vobj 1), cacheSet 0 ⟨[]⟩ "u" (.vobj 1), 1) ∧
    fetchUrl (fun _ _ => .ok (.vobj 1)) 5 (cacheSet 0 ⟨[]⟩ "u" (.vobj 1)) "GET" "u" =
      (.ok (.vobj 1), cacheSet 0 ⟨[]⟩ "u" (.vobj 1), 0) ∧
    fetchUrl (fun _ _ => .ok (.vobj 1)) 3600 (cacheSet 0 ⟨[]⟩ "u" (.vobj 1)) "GET" "u" =
      (.ok (.vobj 1), cacheSet 3600 (cacheSet 0 ⟨[]⟩ "u" (.vobj 1)) "u" (.vobj 1), 1) := by
  refine ⟨(C8_cache_ttl (fun _ _ => .ok (.vobj 1)) 0 ⟨[]⟩ "GET" "u" (.vobj 1) rfl rfl rfl).1,
          (C8_cache_ttl (fun _ _ => .ok (.vobj 1)) 0 ⟨[]⟩ "GET" "u" (.vobj 1) rfl rfl rfl).2.1
            5 (by decide),
          (C8_cache_ttl (fun _ _ => .ok (.vobj 1)) 0 ⟨[]⟩ "GET" "u" (.vobj 1) rfl rfl rfl).2.2
            3600 (by decide)⟩

/-- Claim C9 counterexample: after a GET to a url is cached, a POST to the
same url within the TTL is served the GET's stored response with no network
call - the two methods share one cache entry, because `#fetchUrl` keys the
cache by the url alone (lines 181 and 197). -/
theorem C9_counterexample :
    fetchUrl (fun m _ => if m = "GET" then .ok (.vstr "g") else .ok (.vstr "p")) 1
      ((fetchUrl (fun m _ => if m = "GET" then .ok (.vstr "g") else .ok (.vstr "p"))
        0 ⟨[]⟩ "GET" "u").2.1) "POST" "u" =
      (.ok (.vstr "g"),
       (fetchUrl (fun m _ => if m = "GET" then .ok (.vstr "g") else .ok (.vstr "p"))
         0 ⟨[]⟩ "GET" "u").2.1,
       0) := by
  rfl

/-- Claim C9 (amended): the cache is keyed by the url alone - the HTTP method
is not part of the request identity. A fetched response is stored under the
url, and any later request to that url within the TTL, with any method, is
served that stored (truthy) response without a network call. -/
theorem C9_cache_key_url_only (net : String → String → Except JsError JsValue)
    (now : Nat) (st : CacheState) (m1 m2 url : String) (v : JsValue)
    (hmiss : cacheGet now st url = none)
    (hnet : net m1 url = .ok v)
    (hv : jsTruthy v = true) :
    fetchUrl net now st m1 url = (.ok v, cacheSet now st url v, 1) ∧
    (∀ t, t < now + stdTTL →
      fetchUrl net t (cacheSet now st url v) m2 url = (.ok v, cacheSet now st url v, 0)) := by
  refine ⟨?_, ?_⟩
  · simp only [fetchUrl, hmiss, hnet]
  · intro t ht
    have hget : cacheGet t (cacheSet now st url v) url = some v := by
      rw [cacheGet_cacheSet_same, if_pos ht]
    simp only [fetchUrl, hget, hv, if_true]

/-- Claim C9 witness: a GET stores under the url, and a POST one second later
is served the same entry. -/
theorem C9_cache_key_url_only_witness :
    fetchUrl (fun m _ => if m = "GET" then .ok (.vstr "g") else .ok (.vstr "p"))
      0 ⟨[]⟩ "GET" "u" = (.ok (.vstr "g"), cacheSet 0 ⟨[]⟩ "u" (.vstr "g"), 1) ∧
    fetchUrl (fun m _ => if m = "GET" then .ok (.vstr "g") else .ok (.vstr "p"))
      1 (cacheSet 0 ⟨[]⟩ "u" (.vstr "g")) "POST" "u" =
      (.ok (.vstr "g"), cacheSet 0 ⟨[]⟩ "u" (.vstr "g"), 0) := by
  refine ⟨(C9_cache_key_url_only (fun m _ => if m = "GET" then .ok (.vstr "g") else .ok (.vstr "p"))
            0 ⟨[]⟩ "GET" "POST" "u" (.vstr "g") rfl rfl rfl).1,
          (C9_cache_key_url_only (fun m _ => if m = "GET" then .ok (.vstr "g") else .ok (.vstr "p"))
            0 ⟨[]⟩ "GET" "POST" "u" (.vstr "g") rfl rfl rfl).2 1 (by decide)⟩

/-- Claim C10: `_prepareStreamSource` completes without error and leaves the
item entirely unchanged when (i) the item is not a lecture, (ii) it is a
lecture whose asset is absent or whose lower-cased asset type is none of
`video`, `videomashup`, `presentation`, or (iii) it is a `video`/
`videomashup` lecture whose asset has neither `stream_urls.Video` nor
`media_sources`. -/
theorem C10_prepare_frame (lp : PlaylistResolver) (lect : LectureOracle) (courseId : Int)
    (el : CurriculumItem)
    (h : el._class ≠ "lecture" ∨
      (el._class = "lecture" ∧ (el.asset = none ∨
        ∃ a ty, el.asset = some a ∧ a.asset_type = some ty ∧
          jsToLower ty ≠ "video" ∧ jsToLower ty ≠ "videomashup" ∧
          jsToLower ty ≠ "presentation")) ∨
      (el._class = "lecture" ∧
        ∃ a ty, el.asset = some a ∧ a.asset_type = some ty ∧
          (jsToLower ty = "video" ∨ jsToLower ty = "videomashup") ∧
          a.stream_urls_Video = none ∧ a.media_sources = none)) :
    _prepareStreamSource lp lect courseId el = .ok el := by
  unfold _prepareStreamSource
  rcases h with h | ⟨hl, h⟩ | ⟨hl, a, ty, ha, hty, hv, hsv, hms⟩
  · rw [if_neg h]
  · rw [if_pos hl]
    rcases h with h | ⟨a, ty, ha, hty, h1, h2, h3⟩
    · rw [h]
    · simp [ha, hty, h1, h2, h3]
  · rw [if_pos hl]
    have hcond : (decide (jsToLower ty = "video") || decide (jsToLower ty = "videomashup")) =
        true := by
      rcases hv with h | h <;> simp [h]
    simp [ha, hty, hsv, hms, hcond]

/-- Claim C10 witness: a quiz item, an article lecture, and a video lecture
with no stream containers all pass through unchanged. -/
theorem C10_prepare_frame_witness :
    _prepareStreamSource (fun _ => []) (fun _ _ _ => .error (mkError "E" "")) 0
      { id := 1, _class := "quiz", title := "Q", asset := none, supplementary_assets := none } =
      .ok { id := 1, _class := "quiz", title := "Q", asset := none,
            supplementary_assets := none } ∧
    _prepareStreamSource (fun _ => []) (fun _ _ _ => .error (mkError "E" "")) 0
      { id := 2, _class := "lecture", title := "A",
        asset := some { id := 9, asset_type := some "Article", title := "A",
                        stream_urls_Video := none, media_sources := none,
                        media_license_token := none, streams := none },
        supplementary_assets := none } =
      .ok { id := 2, _class := "lecture", title := "A",
            asset := some { id := 9, asset_type := some "Article", title := "A",
                            stream_urls_Video := none, media_sources := none,
                            media_license_token := none, streams := none },
            supplementary_assets := none } ∧
    _prepareStreamSource (fun _ => []) (fun _ _ _ => .error (mkError "E" "")) 0
      { id := 3, _class := "lecture", title := "V",
        asset := some { id := 10, asset_type := some "Video", title := "V",
                        stream_urls_Video := none, media_sources := none,
                        media_license_token := none, streams := none },
        supplementary_assets := none } =
      .ok { id := 3, _class := "lecture", title := "V",
            asset := some { id := 10, asset_type := some "Video", title := "V",
                            stream_urls_Video := none, media_sources := none,
                            media_license_token := none, streams := none },
            supplementary_assets := none } := by
  refine ⟨C10_prepare_frame _ _ _ _ (Or.inl (by decide)),
          C10_prepare_frame _ _ _ _ (Or.inr (Or.inl ⟨rfl, Or.inr
            ⟨_, "Article", rfl, rfl, by decide, by decide, by decide⟩⟩)),
          C10_prepare_frame _ _ _ _ (Or.inr (Or.inr ⟨rfl,
            _, "Video", rfl, rfl, Or.inl (by decide), rfl, rfl⟩))⟩

/-- Claim C3 counterexample: a single descriptor labelled
`9007199254740991` - exactly `Number.MAX_SAFE_INTEGER`, the sentinel
`minQuality` starts from - never satisfies `numericQuality < minQuality`, so
the final `minQuality` collapses to `null` instead of the stringified true
minimum of the labels. -/
theorem C3_counterexample :
    _convertToStreams (fun _ => [])
      (some [{ type := "video/mp4", label := "9007199254740991", file := some "u",
               src := none }]) false =
      .ok { minQuality := none, maxQuality := some "9007199254740991", isEncrypted := false,
            sources := [("9007199254740991",
              { type := "video/mp4", url := some "u" })] } := by
  rfl

/-- Claim C3 (amended): for a non-empty list of descriptors whose labels all
parse to numeric values strictly between `Number.MIN_SAFE_INTEGER` and
`Number.MAX_SAFE_INTEGER` (the sentinel initial bounds), with no manifest
mime type, unencrypted, resolution succeeds, `minQuality`/`maxQuality` are
the stringified true minimum and maximum of the numeric labels, and the
`sources` keys are exactly the (lower-cased) labels, each exactly once. -/
theorem C3_numeric_bounds (lp : PlaylistResolver) (l : List StreamDescriptor)
    (hne : l ≠ [])
    (hdash : ∀ d ∈ l, d.type ≠ dashMime)
    (hnum : ∀ d ∈ l, ∃ n : Int, parseIntJS (jsToLower d.label) = some n ∧
      MIN_SAFE_INTEGER < n ∧ n < MAX_SAFE_INTEGER) :
    ∃ r, _convertToStreams lp (some l) false = .ok r ∧
      (∃ mn, mn ∈ numericVals l ∧ (∀ x ∈ numericVals l, mn ≤ x) ∧
        r.minQuality = some (toString mn)) ∧
      (∃ mx, mx ∈ numericVals l ∧ (∀ x ∈ numericVals l, x ≤ mx) ∧
        r.maxQuality = some (toString mx)) ∧
      (srcKeys r.sources).Nodup ∧
      (∀ k, (srcGet r.sources k).isSome = true ↔
        k ∈ l.map (fun d => jsToLower d.label)) := by
  have hfm : l.filterMap explicitVal? = numericVals l := by
    unfold numericVals
    refine List.filterMap_congr ?_
    intro d hd
    rcases hnum d hd with ⟨n, hp, _, _⟩
    rw [explicitVal?_eq_parse (hdash d hd) hp, hp]
  have hdef : (phase1 false l).deferred = [] := by
    unfold phase1
    rw [phase1_foldl_deferred, if_neg Bool.false_ne_true]
    refine List.filterMap_eq_nil_iff.mpr ?_
    intro d hd
    rcases hnum d hd with ⟨n, hp, _, _⟩
    exact autoDefer?_eq_none_of_parse hp
  have hres : _convertToStreams lp (some l) false =
      .ok (assemble false ⟨(phase1 false l).sources, (phase1 false l).minQ,
        (phase1 false l).maxQ⟩) := by
    rw [convert_unencrypted lp l, hdef, phase2_nil]
  have hminq : (phase1 false l).minQ = (numericVals l).foldl min MAX_SAFE_INTEGER := by
    unfold phase1
    rw [phase1_foldl_minQ, hfm]
  have hmaxq : (phase1 false l).maxQ = (numericVals l).foldl max MIN_SAFE_INTEGER := by
    unfold phase1
    rw [phase1_foldl_maxQ, hfm]
  have hex : ∃ n0, n0 ∈ numericVals l ∧ MIN_SAFE_INTEGER < n0 ∧ n0 < MAX_SAFE_INTEGER := by
    rcases l with _ | ⟨d0, rest⟩
    · exact absurd rfl hne
    · rcases hnum d0 (List.mem_cons_self d0 rest) with ⟨n, hp, hb1, hb2⟩
      exact ⟨n, List.mem_filterMap.mpr ⟨d0, List.mem_cons_self d0 rest, hp⟩, hb1, hb2⟩
  rcases hex with ⟨n0, hn0, hb1, hb2⟩
  have hmin_ne : (numericVals l).foldl min MAX_SAFE_INTEGER ≠ MAX_SAFE_INTEGER := by
    intro hh
    have hle := foldl_min_le_mem (numericVals l) MAX_SAFE_INTEGER n0 hn0
    rw [hh] at hle
    exact absurd hle (not_le.mpr hb2)
  have hmax_ne : (numericVals l).foldl max MIN_SAFE_INTEGER ≠ MIN_SAFE_INTEGER := by
    intro hh
    have hle := foldl_max_ge_mem (numericVals l) MIN_SAFE_INTEGER n0 hn0
    rw [hh] at hle
    exact absurd hle (not_le.mpr hb1)
  have hmin_mem : (numericVals l).foldl min MAX_SAFE_INTEGER ∈ numericVals l := by
    rcases foldl_min_init_or_mem (numericVals l) MAX_SAFE_INTEGER with hh | hh
    · exact absurd hh hmin_ne
    · exact hh
  have hmax_mem : (numericVals l).foldl max MIN_SAFE_INTEGER ∈ numericVals l := by
    rcases foldl_max_init_or_mem (numericVals l) MIN_SAFE_INTEGER with hh | hh
    · exact absurd hh hmax_ne
    · exact hh
  rw [hres]
  refine ⟨_, rfl, ?_, ?_, ?_, ?_⟩
  · refine ⟨(numericVals l).foldl min MAX_SAFE_INTEGER, hmin_mem,
      (fun x hx => foldl_min_le_mem _ _ x hx), ?_⟩
    rw [assemble_mk_minQuality, hminq, if_neg hmin_ne]
  · refine ⟨(numericVals l).foldl max MIN_SAFE_INTEGER, hmax_mem,
      (fun x hx => foldl_max_ge_mem _ _ x hx), ?_⟩
    rw [assemble_mk_maxQuality, hmaxq, if_neg hmax_ne]
  · rw [assemble_mk_sources]
    unfold phase1
    exact phase1_foldl_nodup false l ⟨[], MAX_SAFE_INTEGER, MIN_SAFE_INTEGER, []⟩
      List.nodup_nil
  · intro k
    rw [assemble_mk_sources]
    unfold phase1
    have hiff := phase1_foldl_keys false l ⟨[], MAX_SAFE_INTEGER, MIN_SAFE_INTEGER, []⟩ hdash k
    simpa [srcGet] using hiff

/-- Claim C3 witness: two descriptors labelled 720 and 360, unencrypted. -/
theorem C3_numeric_bounds_witness :
    ∃ r, _convertToStreams (fun _ => [])
        (some [{ type := "video/mp4", label := "720", file := some "b", src := none },
               { type := "video/mp4", label := "360", file := some "a", src := none }])
        false = .ok r ∧
      (∃ mn, mn ∈ numericVals
          [{ type := "video/mp4", label := "720", file := some "b", src := none },
           { type := "video/mp4", label := "360", file := some "a", src := none }] ∧
        (∀ x ∈ numericVals
          [{ type := "video/mp4", label := "720", file := some "b", src := none },
           { type := "video/mp4", label := "360", file := some "a", src := none }], mn ≤ x) ∧
        r.minQuality = some (toString mn)) ∧
      (∃ mx, mx ∈ numericVals
          [{ type := "video/mp4", label := "720", file := some "b", src := none },
           { type := "video/mp4", label := "360", file := some "a", src := none }] ∧
        (∀ x ∈ numericVals
          [{ type := "video/mp4", label := "720", file := some "b", src := none },
           { type := "video/mp4", label := "360", file := some "a", src := none }], x ≤ mx) ∧
        r.maxQuality = some (toString mx)) ∧
      (srcKeys r.sources).Nodup ∧
      (∀ k, (srcGet r.sources k).isSome = true ↔
        k ∈ ([{ type := "video/mp4", label := "720", file := some "b", src := none },
              { type := "video/mp4", label := "360", file := some "a", src := none }] :
            List StreamDescriptor).map (fun d => jsToLower d.label)) := by
  refine C3_numeric_bounds (fun _ => []) _ (by decide) (by decide) ?_
  intro d hd
  simp only [List.mem_cons, List.not_mem_nil, or_false] at hd
  rcases hd with rfl | rfl
  · exact ⟨720, rfl, by decide, by decide⟩
  · exact ⟨360, rfl, by decide, by decide⟩

/-- Claim C4: for an unencrypted descriptor list containing one
`"auto"`-labelled descriptor, resolution registers the auto entry verbatim;
every explicit (phase-one) binding survives the playlist merge untouched
(discovered entries never overwrite an existing key); every `(quality, url)`
pair yielded by the playlist resolver ends up registered under its
stringified quality; a key absent after the explicit phase is bound to the
first yielded pair carrying it (or stays absent if none does); and the final
bounds are computed by folding min/max over the explicit numeric labels
followed by the discovered qualities, falling back to `"auto"` when no value
moved the sentinels. -/
theorem C4_auto_playlist (lp : PlaylistResolver) (l1 l2 : List StreamDescriptor)
    (dAuto : StreamDescriptor)
    (hauto : jsToLower dAuto.label = "auto")
    (hdash : dAuto.type ≠ dashMime)
    (h1 : ∀ d ∈ l1, jsToLower d.label ≠ "auto")
    (h2 : ∀ d ∈ l2, jsToLower d.label ≠ "auto") :
    ∃ r, _convertToStreams lp (some (l1 ++ dAuto :: l2)) false = .ok r ∧
      srcGet r.sources "auto" = some ⟨dAuto.type, fileOrSrc dAuto⟩ ∧
      (∀ k v, srcGet (phase1 false (l1 ++ dAuto :: l2)).sources k = some v →
        srcGet r.sources k = some v) ∧
      (∀ i ∈ lp (fileOrSrc dAuto),
        (srcGet r.sources (toString i.quality)).isSome = true) ∧
      (∀ k, srcGet (phase1 false (l1 ++ dAuto :: l2)).sources k = none →
        srcGet r.sources k =
          ((lp (fileOrSrc dAuto)).find? (fun i => toString i.quality == k)).map
            (fun i => (⟨dAuto.type, some i.url⟩ : SourceEntry))) ∧
      r.minQuality =
        (if ((l1 ++ dAuto :: l2).filterMap explicitVal? ++
            (lp (fileOrSrc dAuto)).map PlaylistEntry.quality).foldl
            min MAX_SAFE_INTEGER = MAX_SAFE_INTEGER
         then some "auto"
         else some (toString (((l1 ++ dAuto :: l2).filterMap explicitVal? ++
            (lp (fileOrSrc dAuto)).map PlaylistEntry.quality).foldl
            min MAX_SAFE_INTEGER))) ∧
      r.maxQuality =
        (if ((l1 ++ dAuto :: l2).filterMap explicitVal? ++
            (lp (fileOrSrc dAuto)).map PlaylistEntry.quality).foldl
            max MIN_SAFE_INTEGER = MIN_SAFE_INTEGER
         then some "auto"
         else some (toString (((l1 ++ dAuto :: l2).filterMap explicitVal? ++
            (lp (fileOrSrc dAuto)).map PlaylistEntry.quality).foldl
            max MIN_SAFE_INTEGER))) := by
  have hdef : (phase1 false (l1 ++ dAuto :: l2)).deferred =
      [(dAuto.type, fileOrSrc dAuto)] := by
    unfold phase1
    rw [phase1_foldl_deferred, if_neg Bool.false_ne_true, List.nil_append,
      List.filterMap_append, List.filterMap_cons]
    rw [List.filterMap_eq_nil_iff.mpr (fun d hd => autoDefer?_eq_none_of_ne_auto (h1 d hd)),
      List.filterMap_eq_nil_iff.mpr (fun d hd => autoDefer?_eq_none_of_ne_auto (h2 d hd))]
    simp [autoDefer?_auto hdash hauto]
  have hres : _convertToStreams lp (some (l1 ++ dAuto :: l2)) false =
      .ok (assemble false ((lp (fileOrSrc dAuto)).foldl (mergeItem dAuto.type)
        ⟨(phase1 false (l1 ++ dAuto :: l2)).sources,
         (phase1 false (l1 ++ dAuto :: l2)).minQ,
         (phase1 false (l1 ++ dAuto :: l2)).maxQ⟩)) := by
    rw [convert_unencrypted lp (l1 ++ dAuto :: l2), hdef, phase2_single]
  have hautoBind : srcGet (phase1 false (l1 ++ dAuto :: l2)).sources "auto" =
      some ⟨dAuto.type, fileOrSrc dAuto⟩ := by
    unfold phase1
    rw [List.foldl_append, List.foldl_cons]
    rw [phase1_foldl_binding false l2 _ "auto"
      (fun d hd => Or.inr (h2 d hd))]
    rw [phase1Step_sources, if_neg hdash, srcGet_srcSet, if_pos hauto.symm]
  have hsrcAuto : srcGet ((lp (fileOrSrc dAuto)).foldl (mergeItem dAuto.type)
      ⟨(phase1 false (l1 ++ dAuto :: l2)).sources,
       (phase1 false (l1 ++ dAuto :: l2)).minQ,
       (phase1 false (l1 ++ dAuto :: l2)).maxQ⟩).sources "auto" =
      some ⟨dAuto.type, fileOrSrc dAuto⟩ :=
    mergeFold_preserves _ _ _ _ _ hautoBind
  have hminq : ((lp (fileOrSrc dAuto)).foldl (mergeItem dAuto.type)
      ⟨(phase1 false (l1 ++ dAuto :: l2)).sources,
       (phase1 false (l1 ++ dAuto :: l2)).minQ,
       (phase1 false (l1 ++ dAuto :: l2)).maxQ⟩).minQ =
      ((l1 ++ dAuto :: l2).filterMap explicitVal? ++
        (lp (fileOrSrc dAuto)).map PlaylistEntry.quality).foldl min MAX_SAFE_INTEGER := by
    rw [mergeFold_minQ, List.foldl_append]
    congr 1
    unfold phase1
    rw [phase1_foldl_minQ]
  have hmaxq : ((lp (fileOrSrc dAuto)).foldl (mergeItem dAuto.type)
      ⟨(phase1 false (l1 ++ dAuto :: l2)).sources,
       (phase1 false (l1 ++ dAuto :: l2)).minQ,
       (phase1 false (l1 ++ dAuto :: l2)).maxQ⟩).maxQ =
      ((l1 ++ dAuto :: l2).filterMap explicitVal? ++
        (lp (fileOrSrc dAuto)).map PlaylistEntry.quality).foldl max MIN_SAFE_INTEGER := by
    rw [mergeFold_maxQ, List.foldl_append]
    congr 1
    unfold phase1
    rw [phase1_foldl_maxQ]
  rw [hres]
  refine ⟨_, rfl, ?_, ?_, ?_, ?_, ?_, ?_⟩
  · exact hsrcAuto
  · intro k v hv
    exact mergeFold_preserves _ _ _ _ _ hv
  · intro i hi
    exact mergeFold_isSome_of _ _ _ i hi
  · intro k hk
    exact mergeFold_fresh _ _ _ _ hk
  · rw [assemble_minQuality, hminq, hsrcAuto]
    rfl
  · rw [assemble_maxQuality, hmaxq, hsrcAuto]
    rfl

/-- The worked example of the spec: explicit 360 and 720 descriptors plus an
`"auto"` playlist entry point. -/
def exD360 : StreamDescriptor :=
  { type := "video/mp4", label := "360", file := some "a", src := none }

/-- See `exD360`. -/
def exD720 : StreamDescriptor :=
  { type := "video/mp4", label := "720", file := some "b", src := none }

/-- See `exD360`. -/
def exAuto : StreamDescriptor :=
  { type := "application/x-mpegURL", label := "auto", file := some "c", src := none }

/-- A playlist resolver yielding `(480, "d")` for the example's auto url. -/
def exResolver : PlaylistResolver := fun u => if u = some "c" then [⟨480, "d"⟩] else []

/-- Claim C4 witness: the worked example of the spec - explicit 360 and 720
descriptors plus an `"auto"` playlist entry point whose playlist yields
`(480, "d")`. -/
theorem C4_auto_playlist_witness :
    ∃ r, _convertToStreams exResolver (some ([exD360, exD720] ++ exAuto :: [])) false =
        .ok r ∧
      srcGet r.sources "auto" = some ⟨exAuto.type, fileOrSrc exAuto⟩ ∧
      (∀ k v, srcGet (phase1 false ([exD360, exD720] ++ exAuto :: [])).sources k = some v →
        srcGet r.sources k = some v) ∧
      (∀ i ∈ exResolver (fileOrSrc exAuto),
        (srcGet r.sources (toString i.quality)).isSome = true) ∧
      (∀ k, srcGet (phase1 false ([exD360, exD720] ++ exAuto :: [])).sources k = none →
        srcGet r.sources k =
          ((exResolver (fileOrSrc exAuto)).find? (fun i => toString i.quality == k)).map
            (fun i => (⟨exAuto.type, some i.url⟩ : SourceEntry))) ∧
      r.minQuality =
        (if (([exD360, exD720] ++ exAuto :: []).filterMap explicitVal? ++
            (exResolver (fileOrSrc exAuto)).map PlaylistEntry.quality).foldl
            min MAX_SAFE_INTEGER = MAX_SAFE_INTEGER
         then some "auto"
         else some (toString ((([exD360, exD720] ++ exAuto :: []).filterMap explicitVal? ++
            (exResolver (fileOrSrc exAuto)).map PlaylistEntry.quality).foldl
            min MAX_SAFE_INTEGER))) ∧
      r.maxQuality =
        (if (([exD360, exD720] ++ exAuto :: []).filterMap explicitVal? ++
            (exResolver (fileOrSrc exAuto)).map PlaylistEntry.quality).foldl
            max MIN_SAFE_INTEGER = MIN_SAFE_INTEGER
         then some "auto"
         else some (toString ((([exD360, exD720] ++ exAuto :: []).filterMap explicitVal? ++
            (exResolver (fileOrSrc exAuto)).map PlaylistEntry.quality).foldl
            max MIN_SAFE_INTEGER))) := by
  refine C4_auto_playlist exResolver [exD360, exD720] [] exAuto (by rfl) (by decide) ?_ ?_
  · intro d hd
    simp only [List.mem_cons, List.not_mem_nil, or_false] at hd
    rcases hd with rfl | rfl
    · decide
    · decide
  · intro d hd
    cases hd

/-- Claim C6 counterexample: a fetched curriculum whose result set is empty
but whose reported count is nonzero is not turned into `null`; the guard of
line 379 only checks `count == 0`, so line 383 reads `results[0]._class` off
an empty array and the call fails with a `TypeError`. -/
theorem C6_counterexample :
    processContent (fun _ => []) (fun _ _ _ => .error (mkError "E" "")) 1 false
      { count := 5, results := [], next := none } = .error jsTypeError := by
  rfl

/-- Claim C6 (amended): `fetchCourseContent` returns `null` when the fetched
data's reported count is zero; when the count is nonzero but the result set
is empty it fails with a `TypeError` instead of returning `null`; when the
first item is not a chapter the placeholder `{id: 0, _class: "chapter",
title: "Chapter 1"}` is prepended (and survives hydration and stream
preparation as the head), the result sequence grows by exactly one, and the
returned collection's count always equals the final length of its results. -/
theorem C6_structural_repair (lp : PlaylistResolver) (lect : LectureOracle)
    (courseId : Int) (loadContent : Bool) (d : PageResp) :
    (d.count = 0 → processContent lp lect courseId loadContent d = .ok none) ∧
    (d.count ≠ 0 → d.results = [] →
      processContent lp lect courseId loadContent d = .error jsTypeError) ∧
    (∀ x xs, d.results = x :: xs → x._class ≠ "chapter" →
      ∀ r, processContent lp lect courseId loadContent d = .ok (some r) →
        r.results.head? = some synthChapter ∧
        r.results.length = d.results.length + 1 ∧
        r.count = (r.results.length : Int)) ∧
    (∀ r, processContent lp lect courseId loadContent d = .ok (some r) →
      r.count = (r.results.length : Int)) := by
  refine ⟨?_, ?_, ?_, ?_⟩
  · intro h0
    unfold processContent
    rw [if_pos h0]
  · intro h0 hres
    unfold processContent
    rw [if_neg h0, hres]
  · intro x xs hres hch r h
    rcases processContent_ok_shape lp lect courseId loadContent d r h with
      ⟨x2, xs2, res2, res3, _, hres2, hhyd, hprep, hr1, hr2⟩
    rw [hres] at hres2
    injection hres2 with hx hxs
    subst hx
    subst hxs
    rw [if_pos hch] at hhyd
    have hres2shape : ∃ t2, res2 = synthChapter :: t2 ∧
        res2.length = xs.length + 2 := by
      by_cases hl : loadContent
      · rw [if_pos hl] at hhyd
        rcases hydrateItems_cons_ok lect courseId synthChapter synthChapter
          (x :: xs) res2 (hydrateOne_synth lect courseId) hhyd with ⟨t2, ht2, _⟩
        refine ⟨t2, ht2, ?_⟩
        rw [hydrateItems_length lect courseId (synthChapter :: x :: xs) res2 hhyd]
        simp
      · rw [if_neg hl] at hhyd
        injection hhyd with hhyd
        refine ⟨x :: xs, hhyd.symm, ?_⟩
        rw [← hhyd]
        simp
    rcases hres2shape with ⟨t2, ht2, hlen2⟩
    rw [ht2] at hprep
    rcases prepareAll_cons_ok lp lect courseId synthChapter synthChapter t2 res3
      (prepare_synth lp lect courseId) hprep with ⟨t3, ht3, _⟩
    have hlen3 : res3.length = res2.length := by
      rw [ht2]
      exact prepareAll_length lp lect courseId (synthChapter :: t2) res3 hprep
    refine ⟨?_, ?_, ?_⟩
    · rw [hr1, ht3]
      rfl
    · rw [hr1, hlen3, hlen2, hres]
      simp
    · rw [hr2, hr1]
  · intro r h
    rcases processContent_ok_shape lp lect courseId loadContent d r h with
      ⟨x2, xs2, res2, res3, _, _, _, _, hr1, hr2⟩
    rw [hr2, hr1]

/-- A lone lecture item used by concrete runs. -/
def lectureLItem : CurriculumItem :=
  { id := 5, _class := "lecture", title := "L", asset := none, supplementary_assets := none }

/-- A lone chapter item used by concrete runs. -/
def chapterCItem : CurriculumItem :=
  { id := 3, _class := "chapter", title := "C", asset := none, supplementary_assets := none }

/-- Claim C6 witness: a curriculum whose only item is a lecture gets the
placeholder chapter prepended and its count recomputed to the final length;
a zero-count response yields `null`. -/
theorem C6_structural_repair_witness :
    processContent (fun _ => []) (fun _ _ _ => .error (mkError "X" "")) 1 false
      { count := 0, results := [], next := none } = .ok none ∧
    ({ count := 2, results := [synthChapter, lectureLItem],
       next := none } : PageResp).results.head? = some synthChapter ∧
    ({ count := 2, results := [synthChapter, lectureLItem],
       next := none } : PageResp).results.length =
      ({ count := 7, results := [lectureLItem], next := none } :
        PageResp).results.length + 1 ∧
    ({ count := 2, results := [synthChapter, lectureLItem],
       next := none } : PageResp).count =
      (({ count := 2, results := [synthChapter, lectureLItem],
          next := none } : PageResp).results.length : Int) := by
  refine ⟨(C6_structural_repair (fun _ => []) (fun _ _ _ => .error (mkError "X" "")) 1 false
      { count := 0, results := [], next := none }).1 rfl, ?_⟩
  exact (C6_structural_repair (fun _ => []) (fun _ _ _ => .error (mkError "X" "")) 1 false
      { count := 7, results := [lectureLItem], next := none }).2.2.1
    lectureLItem [] rfl (by decide)
    { count := 2, results := [synthChapter, lectureLItem], next := none } rfl

/-- Claim C7: during paginated curriculum fetch, a page-fetch failure whose
HTTP status is exactly 503 abandons pagination and continues from the
unpaginated cached-curriculum data, marking lecture hydration as pending
exactly when the effective content type is not `"less"`; a failure with any
other status (or none) propagates unchanged to the caller. -/
theorem C7_degraded_503_fallback (net : PageOracle) (cached : Except JsError PageResp)
    (lect : LectureOracle) (lp : PlaylistResolver) (urlBase : String) (courseId : Int)
    (contentType : String) (fuel : Nat) (e : JsError)
    (hloop : paginateLoop net fuel
      (contentUrl urlBase courseId (effectiveContentType contentType)) none =
        some (.error e)) :
    (e.responseStatus = some 503 → ∀ c, cached = .ok c →
      fetchCourseContentModel net cached lect lp urlBase courseId contentType fuel =
        some (processContent lp lect courseId
          (decide (effectiveContentType contentType ≠ "less")) c)) ∧
    (e.responseStatus ≠ some 503 →
      fetchCourseContentModel net cached lect lp urlBase courseId contentType fuel =
        some (.error e)) := by
  constructor
  · intro h503 c hc
    simp only [fetchCourseContentModel]
    rw [hloop]
    dsimp only
    rw [if_pos h503, hc]
  · intro hother
    simp only [fetchCourseContentModel]
    rw [hloop]
    dsimp only
    rw [if_neg hother]

/-- The 503 failure used by concrete runs. -/
def err503 : JsError :=
  { name := "AxiosError", message := "Service Unavailable", responseStatus := some 503 }

/-- The 500 failure used by concrete runs. -/
def err500 : JsError :=
  { name := "AxiosError", message := "ISE", responseStatus := some 500 }

/-- The cached-curriculum fallback data used by concrete runs. -/
def cachedC : PageResp := { count := 1, results := [chapterCItem], next := none }

/-- Claim C7 witness: a network that always fails with status 503 triggers
the fallback (with hydration pending for `contentType = "all"`), while a
network failing with status 500 propagates its error unchanged. -/
theorem C7_degraded_503_fallback_witness :
    fetchCourseContentModel (fun _ => .error err503) (.ok cachedC)
      (fun _ _ _ => .error (mkError "X" "")) (fun _ => [])
      "https://www.udemy.com" 7 "all" 1 =
      some (processContent (fun _ => []) (fun _ _ _ => .error (mkError "X" "")) 7
        (decide (effectiveContentType "all" ≠ "less")) cachedC) ∧
    fetchCourseContentModel (fun _ => .error err500) (.ok cachedC)
      (fun _ _ _ => .error (mkError "X" "")) (fun _ => [])
      "https://www.udemy.com" 7 "all" 1 = some (.error err500) := by
  refine ⟨(C7_degraded_503_fallback (fun _ => .error err503) (.ok cachedC)
      (fun _ _ _ => .error (mkError "X" "")) (fun _ => [])
      "https://www.udemy.com" 7 "all" 1 err503 rfl).1 rfl _ rfl,
    (C7_degraded_503_fallback (fun _ => .error err500) (.ok cachedC)
      (fun _ _ _ => .error (mkError "X" "")) (fun _ => [])
      "https://www.udemy.com" 7 "all" 1 err500 rfl).2 (by decide)⟩

end UdemyDownloader
